import Mathlib

/-!
Shallow embedding of `XMLExporter.cpp` (SketchUp `skp_to_xml` sample exporter).

The proprietary SDK is modelled as pure data: every SDK query that the
exporter performs is a field of the corresponding model structure, of type
`Except Unit α` so that any individual call may report a non-success status.
The exporter's own functions are translated into a trace-emitting error
monad `M`: each SDK call, writer operation, statistics update and
inheritance-manager push/pop appends an event to the trace, and a failing
`SU_CALL` aborts the computation (mirroring the macro that throws on any
non-success status code).
-/

namespace SkpXml

/-- RGBA color as returned by `SUMaterialGetColor` (`SUColor`). -/
structure Color where
  r : Nat
  g : Nat
  b : Nat
  a : Nat
  deriving DecidableEq, Repr, Inhabited

/-- A 3d point (`SUPoint3D` / `CPoint3d`); coordinates are carried through
the exporter unchanged, so they are modelled as integers. -/
structure Point3d where
  x : Int
  y : Int
  z : Int
  deriving DecidableEq, Repr, Inhabited

/-- Group/instance transformation (`SUTransformation`); the exporter only
copies it into the output, so it is modelled opaquely. -/
abbrev Transform := Nat

/-- Material type (`SUMaterialType`). -/
inductive MatType where
  | colored
  | textured
  | colorizedTexture
  deriving DecidableEq, Repr, Inhabited

/-- A texture as queried by `GetMaterialInfo` (`SUTextureRef`). -/
structure Texture where
  fileName : Except Unit String
  dims : Except Unit (Nat × Nat × Int × Int)
  deriving Inhabited

/-- A material as queried by the exporter (`SUMaterialRef`). -/
structure Material where
  name : Except Unit String
  type : Except Unit MatType
  color : Except Unit Color
  useOpacity : Except Unit Bool
  opacity : Except Unit Int
  texture : Except Unit Texture
  deriving Inhabited

/-- A layer as queried by the exporter (`SULayerRef`).
`material` is the result of `SULayerGetMaterial`: an error status means the
layer has no material (the exporter only checks the status inline). -/
structure Layer where
  name : Except Unit String
  material : Except Unit Material
  visible : Except Unit Bool
  deriving Inhabited

/-- A vertex (`SUVertexRef`). -/
structure Vertex where
  position : Except Unit Point3d
  deriving Inhabited

/-- A loop (`SULoopRef`); `vertices` backs the
`SULoopGetNumVertices` / `SULoopGetVertices` call pair. -/
structure Loop where
  vertices : Except Unit (List Vertex)
  deriving Inhabited

/-- A face (`SUFaceRef`). -/
structure Face where
  outerLoop : Except Unit Loop
  innerLoops : Except Unit (List Loop)
  deriving Inhabited

/-- An edge (`SUEdgeRef`).  `layer` is the result of
`SUDrawingElementGetLayer`: the call may fail, or succeed returning a
possibly-invalid layer reference. -/
structure Edge where
  layer : Except Unit (Option Layer)
  startVertex : Except Unit Vertex
  endVertex : Except Unit Vertex
  deriving Inhabited

mutual
/-- An entities collection (`SUEntitiesRef`).  The fields back the
corresponding `SUEntitiesGetNum*` / `SUEntitiesGet*` call pairs.  `edges`
models the stand-alone edges the SDK holds for the collection; the
exporter's edge-writing block is commented out and never reads it. -/
inductive Entities where
  | mk (instances : Except Unit (List CompInstance))
       (groups : Except Unit (List Group))
       (faces : Except Unit (List (Option Face)))
       (edges : Except Unit (List Edge)) : Entities

/-- A component instance (`SUComponentInstanceRef`).  `layer` and
`material` are the results of the status-ignored `SUDrawingElementGet*`
calls: `none` means the reference stayed invalid. -/
inductive CompInstance where
  | mk (definition : Except Unit CompDef)
       (layer : Option Layer)
       (material : Option Material)
       (transform : Except Unit Transform) : CompInstance

/-- A component definition (`SUComponentDefinitionRef`).  `entities` is the
result of the status-ignored `SUComponentDefinitionGetEntities` call. -/
inductive CompDef where
  | mk (name : Except Unit String)
       (entities : Option Entities) : CompDef

/-- A group (`SUGroupRef`). -/
inductive Group where
  | mk (entities : Except Unit Entities)
       (transform : Except Unit Transform) : Group
end

def Entities.instances : Entities → Except Unit (List CompInstance)
  | .mk i _ _ _ => i

def Entities.groups : Entities → Except Unit (List Group)
  | .mk _ g _ _ => g

def Entities.faces : Entities → Except Unit (List (Option Face))
  | .mk _ _ f _ => f

def Entities.edges : Entities → Except Unit (List Edge)
  | .mk _ _ _ e => e

def CompInstance.definition : CompInstance → Except Unit CompDef
  | .mk d _ _ _ => d

def CompInstance.layer : CompInstance → Option Layer
  | .mk _ l _ _ => l

def CompInstance.material : CompInstance → Option Material
  | .mk _ _ m _ => m

def CompInstance.transform : CompInstance → Except Unit Transform
  | .mk _ _ _ t => t

def CompDef.name : CompDef → Except Unit String
  | .mk n _ => n

def CompDef.entities : CompDef → Option Entities
  | .mk _ e => e

def Group.entities : Group → Except Unit Entities
  | .mk e _ => e

def Group.transform : Group → Except Unit Transform
  | .mk _ t => t

/-- The model (`SUModelRef`) as queried by the exporter. -/
structure Model where
  version : Except Unit (Nat × Nat × Nat)
  layers : Except Unit (List (Option Layer))
  materials : Except Unit (List (Option Material))
  entities : Except Unit Entities

/-- Output record for a material (`XmlMaterialInfo`). -/
structure MaterialInfo where
  name : String := ""
  hasColor : Bool := false
  color : Color := default
  hasAlpha : Bool := false
  alpha : Int := 0
  hasTexture : Bool := false
  texturePath : String := ""
  textureSScale : Int := 0
  textureTScale : Int := 0
  deriving DecidableEq, Repr, Inhabited

/-- Output record for a layer (`XmlLayerInfo`). -/
structure LayerInfo where
  name : String := ""
  hasMaterialInfo : Bool := false
  materialInfo : MaterialInfo := default
  isVisible : Bool := true
  deriving DecidableEq, Repr, Inhabited

/-- Output record for a component instance (`XmlComponentInstanceInfo`).
The layer and material names default to unset. -/
structure InstanceInfo where
  layerName : Option String := none
  materialName : Option String := none
  definitionName : String := ""
  transform : Transform := 0
  deriving DecidableEq, Repr, Inhabited

/-- One vertex of a face record (`XmlFaceVertex`). -/
structure FaceVertex where
  vertex : Point3d
  deriving DecidableEq, Repr, Inhabited

/-- Output record for a face loop (`XmlFaceInfo`). -/
structure FaceInfo where
  hasSingleLoop : Bool := false
  vertices : List FaceVertex := []
  deriving DecidableEq, Repr, Inhabited

/-- Output record for an edge (`XmlEdgeInfo`). -/
structure EdgeInfo where
  hasLayer : Bool := false
  layerName : Option String := none
  hasColor : Bool := false
  color : Color := default
  start : Point3d := default
  stop : Point3d := default
  deriving DecidableEq, Repr, Inhabited

/-- An element pushed on the inheritance manager's context stack. -/
inductive PushedE where
  | group (g : Group)
  | face (f : Option Face)

/-- Events observed during an export run: SDK calls, writer operations,
statistics updates, progress reporting, and inheritance-manager pushes and
pops. -/
inductive Ev where
  | initSDK
  | call (name : String) (wrapped : Bool)
  | openFile (ok : Bool)
  | close (cancelled : Bool)
  | progress (pct : Nat) (msg : String)
  | checkCancel (b : Bool)
  | loadAllTextures (byLayer : Bool)
  | writeAllTexturesDir (dir : String)
  | writeHeader (v : Nat × Nat × Nat)
  | startLayers
  | startMaterials
  | startGeometry
  | startGroup
  | startCompDef (name : String)
  | popParent
  | writeLayerInfo (i : LayerInfo)
  | writeMaterialInfo (i : MaterialInfo)
  | writeInstanceInfo (i : InstanceInfo)
  | writeTransformation (t : Transform)
  | writeFaceInfo (i : FaceInfo)
  | writeEdgeInfo (i : EdgeInfo)
  | statSetTextures (n : Nat)
  | statAddLayer
  | statAddFace
  | statAddEdge
  | push (e : PushedE)
  | pop
  | releaseTextureWriter
  | releaseModel
  | terminate

/-- The constructor class of an event, with payloads erased. -/
inductive EvKind where
  | initSDK
  | call
  | openFile
  | close
  | progress
  | checkCancel
  | loadAllTextures
  | writeAllTexturesDir
  | writeHeader
  | startLayers
  | startMaterials
  | startGeometry
  | startGroup
  | startCompDef
  | popParent
  | writeLayerInfo
  | writeMaterialInfo
  | writeInstanceInfo
  | writeTransformation
  | writeFaceInfo
  | writeEdgeInfo
  | statSetTextures
  | statAddLayer
  | statAddFace
  | statAddEdge
  | push
  | pop
  | releaseTextureWriter
  | releaseModel
  | terminate
  deriving DecidableEq, Repr

/-- Classify an event by its constructor. -/
def Ev.kind : Ev → EvKind
  | .initSDK => .initSDK
  | .call _ _ => .call
  | .openFile _ => .openFile
  | .close _ => .close
  | .progress _ _ => .progress
  | .checkCancel _ => .checkCancel
  | .loadAllTextures _ => .loadAllTextures
  | .writeAllTexturesDir _ => .writeAllTexturesDir
  | .writeHeader _ => .writeHeader
  | .startLayers => .startLayers
  | .startMaterials => .startMaterials
  | .startGeometry => .startGeometry
  | .startGroup => .startGroup
  | .startCompDef _ => .startCompDef
  | .popParent => .popParent
  | .writeLayerInfo _ => .writeLayerInfo
  | .writeMaterialInfo _ => .writeMaterialInfo
  | .writeInstanceInfo _ => .writeInstanceInfo
  | .writeTransformation _ => .writeTransformation
  | .writeFaceInfo _ => .writeFaceInfo
  | .writeEdgeInfo _ => .writeEdgeInfo
  | .statSetTextures _ => .statSetTextures
  | .statAddLayer => .statAddLayer
  | .statAddFace => .statAddFace
  | .statAddEdge => .statAddEdge
  | .push _ => .push
  | .pop => .pop
  | .releaseTextureWriter => .releaseTextureWriter
  | .releaseModel => .releaseModel
  | .terminate => .terminate

/-- The exporter's computations: a result (or a raised SDK error) together
with the trace of events emitted so far, including the events emitted
before a failure. -/
def M (α : Type) : Type := Except Unit α × List Ev

namespace M

def pure (a : α) : M α := (.ok a, [])

def bind (m : M α) (f : α → M β) : M β :=
  match m with
  | (.ok a, tr) =>
    match f a with
    | (r, tr') => (r, tr ++ tr')
  | (.error e, tr) => (.error e, tr)

instance : Monad M where
  pure := pure
  bind := bind

/-- Result component of a computation. -/
def res (m : M α) : Except Unit α := m.1

/-- Trace component of a computation. -/
def trace (m : M α) : List Ev := m.2

end M

/-- Emit a single event. -/
def emit (e : Ev) : M Unit := (.ok (), [e])

/-- Emit a list of events. -/
def emitAll (es : List Ev) : M Unit := (.ok (), es)

/-- An SDK call wrapped in the `SU_CALL` macro: the call event is recorded
and a non-success status raises, aborting the computation. -/
def suCall (name : String) (r : Except Unit α) : M α :=
  (r, [Ev.call name true])

/-- An SDK call whose status the exporter checks inline
(`... == SU_ERROR_NONE`): never raises, yields `none` on non-success. -/
def suCheck (name : String) (r : Except Unit α) : M (Option α) :=
  (.ok r.toOption, [Ev.call name false])

/-- An SDK call whose status the exporter discards: never raises. -/
def suIgnored (name : String) (v : α) : M α :=
  (.ok v, [Ev.call name false])

/-- The `SUGetNum*` / `SUGet*` call pair used to fetch a collection: the
count call is wrapped, and the fetch call runs only when the count is
positive. -/
def suCountGet (nameNum nameGet : String) (d : Except Unit (List α)) :
    M (List α) := do
  let n ← suCall nameNum (d.map List.length)
  if 0 < n then suCall nameGet d else M.pure []

/-- Run an action on each element of a list in order. -/
def mFor : List α → (α → M Unit) → M Unit
  | [], _ => M.pure ()
  | x :: xs, f => do
    f x
    mFor xs f

/-- Map an action over a list, collecting the results in order. -/
def mMap : List α → (α → M β) → M (List β)
  | [], _ => M.pure []
  | x :: xs, f => do
    let y ← f x
    let ys ← mMap xs f
    M.pure (y :: ys)

/-- Export option toggles (`CXmlOptions`), as consumed by the exporter. -/
structure Options where
  exportMaterials : Bool
  exportLayers : Bool
  exportFaces : Bool
  exportEdges : Bool
  exportMaterialsByLayer : Bool
  deriving DecidableEq, Repr, Inhabited

/-- The environment of one `Convert` invocation: the results of the model
and texture-writer creation calls, whether the destination file opens, the
texture helper's outcome, and the caller-supplied cancellation flag (its
value at the k-th time it is checked). -/
structure Env where
  createModel : Except Unit Model
  createWriter : Except Unit Unit
  openOk : Bool
  textureCount : Nat
  texDir : String
  writeAllTextures : Except Unit Unit
  cancel : Nat → Bool

/-- Utility `GetLayerName`: `SU_CALL(SULayerGetName(layer, name))` on a
possibly-invalid layer reference (the call fails on an invalid one). -/
def getLayerNameRef : Option Layer → M String
  | some l => suCall "SULayerGetName" l.name
  | none => suCall "SULayerGetName" (.error ())

/-- Utility `GetMaterialName`: `SU_CALL(SUMaterialGetName(material, name))`
on a possibly-invalid material reference. -/
def getMaterialNameRef : Option Material → M String
  | some m => suCall "SUMaterialGetName" m.name
  | none => suCall "SUMaterialGetName" (.error ())

/-- Utility `GetComponentDefinitionName`:
`SU_CALL(SUComponentDefinitionGetName(comp_def, name))`. -/
def getCompDefNameRef : Option CompDef → M String
  | some d => suCall "SUComponentDefinitionGetName" d.name
  | none => suCall "SUComponentDefinitionGetName" (.error ())

/-- The color part of `GetMaterialInfo`: for a colored or colorized
material whose inline-checked color fetch succeeds, record the color. -/
def matColorPart (type : MatType) (m : Material) : M (Bool × Color) :=
  if type = MatType.colored ∨ type = MatType.colorizedTexture then do
    let c ← suCheck "SUMaterialGetColor" m.color
    match c with
    | some color => M.pure (true, color)
    | none => M.pure (false, (default : Color))
  else M.pure (false, (default : Color))

/-- The alpha part of `GetMaterialInfo`: when the material uses opacity,
fetch and record it. -/
def matAlphaPart (useOp : Bool) (m : Material) : M (Bool × Int) :=
  if useOp then do
    let a ← suCall "SUMaterialGetOpacity" m.opacity
    M.pure (true, a)
  else M.pure (false, (0 : Int))

/-- The texture part of `GetMaterialInfo`: for a textured or colorized
material whose inline-checked texture fetch succeeds, record the texture
path and scales. -/
def matTexturePart (type : MatType) (m : Material) :
    M (Bool × String × Int × Int) :=
  if type = MatType.textured ∨ type = MatType.colorizedTexture then do
    let t ← suCheck "SUMaterialGetTexture" m.texture
    match t with
    | some texture => do
      let path ← suCall "SUTextureGetFileName" texture.fileName
      let dims ← suCall "SUTextureGetDimensions" texture.dims
      M.pure (true, path, dims.2.2.1, dims.2.2.2)
    | none => M.pure (false, "", (0 : Int), (0 : Int))
  else M.pure (false, "", (0 : Int), (0 : Int))

/-- `GetMaterialInfo`: assembles an `XmlMaterialInfo` from a material. -/
def getMaterialInfo (m : Material) : M MaterialInfo := do
  let name ← getMaterialNameRef (some m)
  let type ← suCall "SUMaterialGetType" m.type
  let colorPart ← matColorPart type m
  let useOp ← suCall "SUMaterialGetUseOpacity" m.useOpacity
  let alphaPart ← matAlphaPart useOp m
  let texPart ← matTexturePart type m
  M.pure
    { name := name
      hasColor := colorPart.1
      color := colorPart.2
      hasAlpha := alphaPart.1
      alpha := alphaPart.2
      hasTexture := texPart.1
      texturePath := texPart.2.1
      textureSScale := texPart.2.2.1
      textureTScale := texPart.2.2.2 }

/-- The material-info part of `CXmlExporter::WriteLayer`: when
`SULayerGetMaterial` reported a material, fetch its info. -/
def layerMaterialPart : Option Material → M (Bool × MaterialInfo)
  | some m => do
    let mi ← getMaterialInfo m
    M.pure (true, mi)
  | none => M.pure (false, (default : MaterialInfo))

/-- `CXmlExporter::WriteLayer`: skips an invalid layer reference, otherwise
assembles and writes one layer record. -/
def writeLayer : Option Layer → M Unit
  | none => M.pure ()
  | some layer => do
    let name ← getLayerNameRef (some layer)
    let mat ← suCheck "SULayerGetMaterial" layer.material
    let matPart ← layerMaterialPart mat
    let isVisible ← suCall "SULayerGetVisibility" layer.visible
    emit .statAddLayer
    emit (.writeLayerInfo
      { name := name
        hasMaterialInfo := matPart.1
        materialInfo := matPart.2
        isVisible := isVisible })

/-- `CXmlExporter::WriteLayers`: when layer export is enabled, starts the
layers section, writes each of the model's layers, and closes the
section. -/
def writeLayers (opts : Options) (model : Model) : M Unit :=
  if opts.exportLayers then do
    emit .startLayers
    let layers ← suCountGet "SUModelGetNumLayers" "SUModelGetLayers"
      model.layers
    mFor layers writeLayer
    emit .popParent
  else M.pure ()

/-- `CXmlExporter::WriteMaterial`: skips an invalid material reference,
otherwise writes one material record. -/
def writeMaterial : Option Material → M Unit
  | none => M.pure ()
  | some m => do
    let info ← getMaterialInfo m
    emit (.writeMaterialInfo info)

/-- The material of a possibly-invalid layer reference, as returned by
`SULayerGetMaterial` (the call fails on an invalid reference). -/
def layerMaterialOf : Option Layer → Except Unit Material
  | some layer => layer.material
  | none => .error ()

/-- `CXmlExporter::WriteMaterials`: when material export is enabled, writes
the materials section, either grouped by layer or from the model's material
list; with no layers (respectively materials) nothing is written. -/
def writeMaterials (opts : Options) (model : Model) : M Unit :=
  if opts.exportMaterials then
    if opts.exportMaterialsByLayer then do
      let n ← suCall "SUModelGetNumLayers" (model.layers.map List.length)
      if 0 < n then do
        let layers ← suCall "SUModelGetLayers" model.layers
        emit .startMaterials
        mFor layers (fun l => do
          let mat ← suCheck "SULayerGetMaterial" (layerMaterialOf l)
          match mat with
          | some m => writeMaterial (some m)
          | none => M.pure ())
        emit .popParent
      else M.pure ()
    else do
      let n ← suCall "SUModelGetNumMaterials"
        (model.materials.map List.length)
      if 0 < n then do
        emit .startMaterials
        let mats ← suCall "SUModelGetMaterials" model.materials
        mFor mats writeMaterial
        emit .popParent
      else M.pure ()
  else M.pure ()

/-- `CXmlExporter::WriteTextureFiles`: when material export is enabled,
loads all textures into the texture writer and, when any were loaded,
writes them out to the texture directory. -/
def writeTextureFiles (env : Env) (opts : Options) : M Unit :=
  if opts.exportMaterials then do
    emit (.loadAllTextures opts.exportMaterialsByLayer)
    emit (.statSetTextures env.textureCount)
    if 0 < env.textureCount then do
      emit (.writeAllTexturesDir env.texDir)
      let _ ← suCall "SUTextureWriterWriteAllTextures" env.writeAllTextures
      M.pure ()
    else M.pure ()
  else M.pure ()

/-- The layer-name part of the component-instance block: a name is fetched
only when the status-discarded layer lookup produced a valid reference. -/
def instLayerName : Option Layer → M (Option String)
  | some l => do
    let nm ← getLayerNameRef (some l)
    M.pure (some nm)
  | none => M.pure none

/-- The material-name part of the component-instance block. -/
def instMaterialName : Option Material → M (Option String)
  | some m => do
    let nm ← getMaterialNameRef (some m)
    M.pure (some nm)
  | none => M.pure none

/-- The component-instance block of `CXmlExporter::WriteEntities`:
assembles and writes one component-instance record. -/
def writeInstance (inst : CompInstance) : M Unit := do
  let defn ← suCall "SUComponentInstanceGetDefinition" inst.definition
  let layer ← suIgnored "SUDrawingElementGetLayer" inst.layer
  let layerName ← instLayerName layer
  let mat ← suIgnored "SUDrawingElementGetMaterial" inst.material
  let matName ← instMaterialName mat
  let defName ← getCompDefNameRef (some defn)
  let t ← suCall "SUComponentInstanceGetTransform" inst.transform
  emit (.writeInstanceInfo
    { layerName := layerName
      materialName := matName
      definitionName := defName
      transform := t })

/-- The component-instances part of `CXmlExporter::WriteEntities`. -/
def instancesPart (is : Except Unit (List CompInstance)) : M Unit := do
  let l ← suCountGet "SUEntitiesGetNumInstances" "SUEntitiesGetInstances" is
  mFor l writeInstance

/-- The per-loop vertex gathering of `CXmlExporter::WriteFace`: fetches the
loop's vertices and each vertex's position, in order. -/
def loopVertexInfos (lp : Loop) : M (List FaceVertex) := do
  let vs ← suCountGet "SULoopGetNumVertices" "SULoopGetVertices" lp.vertices
  mMap vs (fun v => do
    let p ← suCall "SUVertexGetPosition" v.position
    M.pure { vertex := p })

/-- `CXmlExporter::WriteFace`: skips an invalid face reference, otherwise
writes one single-loop record for the outer loop, then one single-loop
record per inner loop, bumping the face statistics counter for each. -/
def writeFace : Option Face → M Unit
  | none => M.pure ()
  | some face => do
    let outer ← suCall "SUFaceGetOuterLoop" face.outerLoop
    let vs ← loopVertexInfos outer
    emit .statAddFace
    emit (.writeFaceInfo { hasSingleLoop := true, vertices := vs })
    let inners ← suCountGet "SUFaceGetNumInnerLoops" "SUFaceGetInnerLoops"
      face.innerLoops
    mFor inners (fun lp => do
      let vsi ← loopVertexInfos lp
      emit .statAddFace
      emit (.writeFaceInfo { hasSingleLoop := true, vertices := vsi }))

/-- The faces part of `CXmlExporter::WriteEntities`: when face export is
enabled, pushes each face on the inheritance stack, writes it, and pops. -/
def facesPart (opts : Options) (fs : Except Unit (List (Option Face))) :
    M Unit :=
  if opts.exportFaces then do
    let l ← suCountGet "SUEntitiesGetNumFaces" "SUEntitiesGetFaces" fs
    mFor l (fun f => do
      emit (.push (.face f))
      writeFace f
      emit .pop)
  else M.pure ()

mutual
/-- `CXmlExporter::WriteEntities`: component instances, then groups
(recursively), then faces; the edge and curve blocks of the source are
commented out and emit nothing. -/
def writeEntities (opts : Options) : Entities → M Unit
  | .mk is gs fs _es => do
    instancesPart is
    groupsPart opts gs
    facesPart opts fs

/-- The groups part of `CXmlExporter::WriteEntities`: the
`SUEntitiesGetNumGroups` / `SUEntitiesGetGroups` pair followed by the group
loop. -/
def groupsPart (opts : Options) : Except Unit (List Group) → M Unit
  | .error e => (.error e, [Ev.call "SUEntitiesGetNumGroups" true])
  | .ok l => do
    let _ ← suCall "SUEntitiesGetNumGroups" (.ok l.length)
    if 0 < l.length then do
      let _ ← suCall "SUEntitiesGetGroups" (.ok l)
      writeGroupList opts l
    else M.pure ()

/-- The body of the group loop of `CXmlExporter::WriteEntities`, iterated
over the fetched groups in order. -/
def writeGroupList (opts : Options) : List Group → M Unit
  | [] => M.pure ()
  | g :: rest => do
    writeGroup opts g
    writeGroupList opts rest

/-- One iteration of the group loop of `CXmlExporter::WriteEntities`:
fetches the group's entities, pushes the group on the inheritance stack,
starts a group node, writes the nested entities, writes the group's
transformation, closes the node and pops. -/
def writeGroup (opts : Options) : Group → M Unit
  | .mk ge gt =>
    match ge with
    | .error e => (.error e, [Ev.call "SUGroupGetEntities" true])
    | .ok ents => do
      let _ ← suCall "SUGroupGetEntities" (.ok ents)
      emit (.push (.group (.mk (.ok ents) gt)))
      emit .startGroup
      writeEntities opts ents
      let t ← suCall "SUGroupGetTransform" gt
      emit (.writeTransformation t)
      emit .popParent
      emit .pop
end

/-- `CXmlExporter::WriteGeometry`: when face or edge export is enabled,
fetches the model's entities and writes the geometry section. -/
def writeGeometry (opts : Options) (model : Model) : M Unit :=
  if opts.exportFaces || opts.exportEdges then do
    let ents ← suCall "SUModelGetEntities" model.entities
    emit .startGeometry
    writeEntities opts ents
    emit .popParent
  else M.pure ()

/-- The layer part of `CXmlExporter::GetEdgeInfo`: when layer export is
enabled the record has a layer; a name is fetched (from the edge's own
layer) only when the inherited current layer is a valid reference. -/
def edgeLayerPart (opts : Options) (currentLayer : Option Layer)
    (edge : Edge) : M (Bool × Option String) :=
  if opts.exportLayers then
    match currentLayer with
    | some _ => do
      let ol ← suCall "SUDrawingElementGetLayer" edge.layer
      let nm ← getLayerNameRef ol
      M.pure (true, some nm)
    | none => M.pure (true, (none : Option String))
  else M.pure (false, (none : Option String))

/-- The color part of `CXmlExporter::GetEdgeInfo`: when material export is
enabled the record's color is the inheritance manager's current edge
color. -/
def edgeColorPart (opts : Options) (currentEdgeColor : Color) :
    M (Bool × Color) :=
  if opts.exportMaterials then M.pure (true, currentEdgeColor)
  else M.pure (false, (default : Color))

/-- `CXmlExporter::GetEdgeInfo`: assembles an edge record.  The inherited
current layer and current edge color are the values the inheritance
manager would return (`GetCurrentLayer` / `GetCurrentEdgeColor`). -/
def getEdgeInfo (opts : Options) (currentLayer : Option Layer)
    (currentEdgeColor : Color) (edge : Edge) : M EdgeInfo := do
  let layerPart ← edgeLayerPart opts currentLayer edge
  let colorPart ← edgeColorPart opts currentEdgeColor
  let sv ← suCall "SUEdgeGetStartVertex" edge.startVertex
  let sp ← suCall "SUVertexGetPosition" sv.position
  let ev ← suCall "SUEdgeGetEndVertex" edge.endVertex
  let ep ← suCall "SUVertexGetPosition" ev.position
  M.pure
    { hasLayer := layerPart.1
      layerName := layerPart.2
      hasColor := colorPart.1
      color := colorPart.2
      start := sp
      stop := ep }

/-- `CXmlExporter::WriteEdge`: skips an invalid edge reference, otherwise
writes one edge record and bumps the edge statistics counter. -/
def writeEdge (opts : Options) (currentLayer : Option Layer)
    (currentEdgeColor : Color) : Option Edge → M Unit
  | none => M.pure ()
  | some e => do
    let info ← getEdgeInfo opts currentLayer currentEdgeColor e
    emit (.writeEdgeInfo info)
    emit .statAddEdge

/-- `CXmlExporter::ReleaseModelObjects` as a pure event list: releases the
texture writer and the model when their handles are valid, then terminates
the SDK. -/
def releaseModelObjects (writerValid modelValid : Bool) : List Ev :=
  (if writerValid then [Ev.releaseTextureWriter] else []) ++
    (if modelValid then [Ev.releaseModel] else []) ++ [Ev.terminate]

/-- Whether `model_` holds a valid handle after the creation calls. -/
def modelValid (env : Env) : Bool := env.createModel.isOk

/-- Whether `texture_writer_` holds a valid handle after the creation
calls. -/
def writerValid (env : Env) : Bool :=
  env.createModel.isOk && env.createWriter.isOk

/-- Modelled from the spec: `HandleProgress` (declared in the sample's
`utils.h`, not part of this repository's sources) checks the
caller-supplied cancellation flag and reports the percentage and phase
label to the progress callback.  `k` numbers the flag check. -/
def handleProgress (env : Env) (k : Nat) (pct : Nat) (msg : String) :
    M Unit :=
  (.ok (), [Ev.checkCancel (env.cancel k), Ev.progress pct msg])

/-- Modelled from the spec: `IsCancelled` (declared in the sample's
`utils.h`, not part of this repository's sources) reads the
caller-supplied cancellation flag.  `k` numbers the flag check. -/
def isCancelled (env : Env) (k : Nat) : M Bool :=
  (.ok (env.cancel k), [Ev.checkCancel (env.cancel k)])

/-- The outcome of the `try` block of `CXmlExporter::Convert`: an early
return after a failed file open, or a completed export. -/
inductive ConvertR where
  | early
  | done
  deriving DecidableEq, Repr

/-- The part of the `try` block of `CXmlExporter::Convert` that runs after
the destination file opened: the five progress phases, the writes, and the
close with the cancellation flag sampled after writing. -/
def convertMain (env : Env) (opts : Options) (model : Model) :
    M ConvertR := do
  handleProgress env 0 0 "Writing Texture Files..."
  writeTextureFiles env opts
  let v ← suCall "SUModelGetVersion" model.version
  emit (.writeHeader v)
  handleProgress env 1 10 "Writing Layers..."
  writeLayers opts model
  handleProgress env 2 20 "Writing Materials..."
  writeMaterials opts model
  handleProgress env 3 60 "Writing Geometry..."
  writeGeometry opts model
  let c ← isCancelled env 4
  emit (.close c)
  handleProgress env 5 100 "Export Complete"
  M.pure .done

/-- The `try` block of `CXmlExporter::Convert`: initializes the SDK,
creates the model and the texture writer, opens the destination file
(releasing the SDK objects and returning early on failure), and runs the
export phases. -/
def convertBody (env : Env) (opts : Options) : M ConvertR := do
  emit .initSDK
  let model ← suCall "SUModelCreateFromFile" env.createModel
  let _ ← suCall "SUTextureWriterCreate" env.createWriter
  emit (.openFile env.openOk)
  if env.openOk = false then do
    emitAll (releaseModelObjects true true)
    M.pure .early
  else
    convertMain env opts model

/-- `CXmlExporter::Convert`: runs the `try` block; on an early return the
block has already released the SDK objects; on completion it releases them
and returns success; on a raised SDK error it closes the file as cancelled,
releases them, and returns failure. -/
def convert (env : Env) (opts : Options) : Bool × List Ev :=
  match convertBody env opts with
  | (.ok .early, tr) => (false, tr)
  | (.ok .done, tr) =>
    (true, tr ++ releaseModelObjects (writerValid env) (modelValid env))
  | (.error _, tr) =>
    (false, tr ++ [Ev.close true] ++
      releaseModelObjects (writerValid env) (modelValid env))

/-! Trace observations. -/

/-- Number of events of a given kind in a trace. -/
def countKind (k : EvKind) : List Ev → Nat
  | [] => 0
  | e :: tr => (if e.kind = k then 1 else 0) + countKind k tr

/-- Output-record classes relevant to the traversal order: component
instance records, group openings, group transformations, and face
records. -/
inductive Rec where
  | instanceRec
  | startGroup
  | transformRec
  | faceRec
  deriving DecidableEq, Repr

/-- Project an event to its output-record class, if any. -/
def recOf : Ev → Option Rec
  | .writeInstanceInfo _ => some .instanceRec
  | .startGroup => some .startGroup
  | .writeTransformation _ => some .transformRec
  | .writeFaceInfo _ => some .faceRec
  | _ => none

/-- The sequence of output records of a trace. -/
def recs (tr : List Ev) : List Rec := tr.filterMap recOf

/-- The order claimed for the records of an entities collection:
`Ordered true l` says `l` is instance records, then group blocks, then
face records; `Ordered false l` says `l` is a sequence of group blocks,
each a group opening, a recursively ordered inner record list, and the
group's transformation. -/
inductive Ordered : Bool → List Rec → Prop where
  | ents (i g f : List Rec) : (∀ r ∈ i, r = Rec.instanceRec) →
      Ordered false g → (∀ r ∈ f, r = Rec.faceRec) →
      Ordered true (i ++ g ++ f)
  | gnil : Ordered false []
  | gcons (inner rest : List Rec) : Ordered true inner →
      Ordered false rest →
      Ordered false (Rec.startGroup :: (inner ++ Rec.transformRec :: rest))

/-- Modelled from the spec: the inheritance manager (not among the
sources) keeps a stack of pushed elements; `PushElement` pushes and
`PopElement` removes the most recent element.  `applyStack` runs a trace's
pushes and pops over a starting stack. -/
def applyStack : List Ev → List PushedE → List PushedE
  | [], st => st
  | e :: tr, st =>
    applyStack tr
      (match e with
       | .push p => p :: st
       | .pop => st.tail
       | _ => st)

/-- The percentage/label pairs delivered to the progress callback. -/
def progressEvents (tr : List Ev) : List (Nat × String) :=
  tr.filterMap fun e =>
    match e with
    | .progress p m => some (p, m)
    | _ => none

/-- The subsequence of cancellation checks and progress reports. -/
def pulseEvents (tr : List Ev) : List Ev :=
  tr.filter fun e =>
    decide (e.kind = EvKind.checkCancel) || decide (e.kind = EvKind.progress)

/-- The completeness flags passed to the writer's close calls. -/
def closeFlags (tr : List Ev) : List Bool :=
  tr.filterMap fun e =>
    match e with
    | .close b => some b
    | _ => none

/-- The face records of a trace. -/
def faceInfos (tr : List Ev) : List FaceInfo :=
  tr.filterMap fun e =>
    match e with
    | .writeFaceInfo i => some i
    | _ => none

/-- The SDK calls the exporter deliberately does not wrap in `SU_CALL`:
their status is either checked inline or discarded. -/
def exemptCalls : List String :=
  ["SULayerGetMaterial", "SUMaterialGetColor", "SUMaterialGetTexture",
   "SUDrawingElementGetLayer", "SUDrawingElementGetMaterial",
   "SUComponentDefinitionGetEntities"]

/-- An event is an acceptable SDK call: either wrapped in `SU_CALL`, or one
of the named inline-checked or status-discarded calls. -/
def callOk (e : Ev) : Prop :=
  ∀ name w, e = Ev.call name w → w = true ∨ name ∈ exemptCalls

/-- An event drawn from the allowed kind list whose SDK calls are
acceptable. -/
def evOk (ks : List EvKind) (e : Ev) : Prop := e.kind ∈ ks ∧ callOk e

/-- Every event of a computation's trace satisfies `p`, whatever the
outcome. -/
def EvP (p : Ev → Prop) (m : M α) : Prop := ∀ e ∈ m.2, p e

/-! Claim-side definitions, written from the claim's wording, for
comparison with the embedded code. -/

/-- Traverse a list with a fallible projection, in order. -/
def exceptMap (f : α → Except Unit β) : List α → Except Unit (List β)
  | [] => .ok []
  | x :: xs => do
    let y ← f x
    let ys ← exceptMap f xs
    .ok (y :: ys)

/-- The face record the claim describes for one loop: a single-loop record
holding the loop's vertex positions in order. -/
def loopInfo (lp : Loop) : Except Unit FaceInfo := do
  let vs ← lp.vertices
  let ps ← exceptMap Vertex.position vs
  Except.ok { hasSingleLoop := true, vertices := ps.map ({ vertex := · }) }

/-- The recorded layer name claim C7 describes for an edge: the edge's own
layer when the edge overrides the inherited context, the inherited current
layer otherwise. -/
def c7SpecLayerName (currentLayer : Option Layer) (edge : Edge) :
    Option String :=
  match edge.layer with
  | .ok (some l) => l.name.toOption
  | _ => currentLayer.bind fun l => l.name.toOption

/-- Claim C7 as stated, for the layer part: whenever layer export is
enabled and the edge record is assembled successfully, the recorded layer
is the edge's own when it overrides, and the inherited one otherwise. -/
def c7Claim : Prop :=
  ∀ (opts : Options) (cl : Option Layer) (cc : Color) (edge : Edge)
    (info : EdgeInfo) (tr : List Ev),
    opts.exportLayers = true →
    getEdgeInfo opts cl cc edge = (.ok info, tr) →
    info.layerName = c7SpecLayerName cl edge

/-- Whether the model's top-level entities hold at least one stand-alone
edge. -/
def modelHasEdges (env : Env) : Prop :=
  ∃ model ents e es, env.createModel = .ok model ∧
    model.entities = .ok ents ∧ ents.edges = .ok (e :: es)

/-- Claim C4 as stated: each toggle gates its output both ways on a
completed conversion — the layers section iff layer export, the materials
section iff material export, face records iff face export (given faces),
and edge records iff edge export (given stand-alone edges). -/
def c4Claim : Prop :=
  ∀ (env : Env) (opts : Options) (tr : List Ev),
    convert env opts = (true, tr) →
    ((Ev.startLayers ∈ tr) ↔ opts.exportLayers = true) ∧
    ((Ev.startMaterials ∈ tr) ↔ opts.exportMaterials = true) ∧
    ((∃ i, Ev.writeFaceInfo i ∈ tr) →
      opts.exportFaces = true) ∧
    ((∃ i, Ev.writeEdgeInfo i ∈ tr) ↔
      (opts.exportEdges = true ∧ modelHasEdges env))

/-! Concrete example data used by witnesses and counterexamples. -/

/-- A layer with no material. -/
def layerA : Layer := ⟨.ok "LayerA", .error (), .ok true⟩

/-- A plain colored material. -/
def matA : Material :=
  ⟨.ok "MatA", .ok .colored, .ok ⟨1, 2, 3, 4⟩, .ok false, .ok 0, .error ()⟩

/-- A layer carrying a material. -/
def layerB : Layer := ⟨.ok "LayerB", .ok matA, .ok true⟩

/-- A vertex at a given x coordinate. -/
def vtx (n : Int) : Vertex := ⟨.ok ⟨n, 0, 0⟩⟩

/-- A triangle outer loop. -/
def loopA : Loop := ⟨.ok [vtx 1, vtx 2, vtx 3]⟩

/-- A triangle inner loop. -/
def loopI : Loop := ⟨.ok [vtx 4, vtx 5, vtx 6]⟩

/-- A face with one inner loop. -/
def faceA : Face := ⟨.ok loopA, .ok [loopI]⟩

/-- An edge lying on `layerA`. -/
def edgeA : Edge := ⟨.ok (some layerA), .ok (vtx 7), .ok (vtx 8)⟩

/-- A component definition with no entities reference. -/
def cdefA : CompDef := .mk (.ok "DefA") none

/-- A component instance of `cdefA` on `layerA`. -/
def instA : CompInstance := .mk (.ok cdefA) (some layerA) none (.ok 42)

/-- Entities holding a single face. -/
def entsB : Entities := .mk (.ok []) (.ok []) (.ok [some faceA]) (.ok [])

/-- A group wrapping `entsB`. -/
def groupA : Group := .mk (.ok entsB) (.ok 7)

/-- Top-level entities: one instance, one group, one face, one edge. -/
def entsA : Entities :=
  .mk (.ok [instA]) (.ok [groupA]) (.ok [some faceA]) (.ok [edgeA])

/-- A fully populated model. -/
def modelA : Model :=
  ⟨.ok (1, 2, 3), .ok [some layerA, some layerB], .ok [some matA],
    .ok entsA⟩

/-- An environment in which every SDK call succeeds and the caller never
cancels. -/
def envA : Env := ⟨.ok modelA, .ok (), true, 2, "texdir", .ok (), fun _ => false⟩

/-- All export toggles on, materials not grouped by layer. -/
def optsA : Options := ⟨true, true, true, true, false⟩

/-- An environment whose `SUModelCreateFromFile` call fails. -/
def envCreateFail : Env :=
  ⟨.error (), .ok (), true, 0, "texdir", .ok (), fun _ => false⟩

/-- A model with no materials and no layers. -/
def modelEmpty : Model := ⟨.ok (1, 0, 0), .ok [], .ok [], .ok entsB⟩

/-- An environment around `modelEmpty`. -/
def envEmpty : Env :=
  ⟨.ok modelEmpty, .ok (), true, 0, "texdir", .ok (), fun _ => false⟩

/-- An edge that lies on `layerA` with successfully fetched vertices, used
against an invalid inherited layer. -/
def edgeC7 : Edge := ⟨.ok (some layerA), .ok (vtx 1), .ok (vtx 2)⟩

/-! Basic lemmas about the computation monad. -/

theorem bind_def (m : M α) (f : α → M β) : m >>= f = M.bind m f := rfl

theorem bind_ok_pair (a : α) (t : List Ev) (f : α → M β) :
    M.bind (Except.ok a, t) f = ((f a).1, t ++ (f a).2) := by
  rcases hf : f a with ⟨r, t2⟩
  simp [M.bind, hf]

theorem bind_error_pair (e : Unit) (t : List Ev) (f : α → M β) :
    M.bind (Except.error e, t) f = (.error e, t) := rfl

theorem pure_def (a : α) : (Pure.pure a : M α) = (.ok a, []) := rfl

theorem mpure_def (a : α) : (M.pure a : M α) = (.ok a, []) := rfl

theorem bind_eq_ok {m : M α} {f : α → M β} {b : β} {tr : List Ev}
    (h : m >>= f = (.ok b, tr)) :
    ∃ a t1 t2, m = (.ok a, t1) ∧ f a = (.ok b, t2) ∧ tr = t1 ++ t2 := by
  rw [bind_def] at h
  rcases m with ⟨r, t⟩
  cases r with
  | ok a =>
    rcases hf : f a with ⟨r2, t2⟩
    rw [bind_ok_pair, hf] at h
    simp only at h
    injection h with h1 h2
    subst h1
    exact ⟨a, t, t2, rfl, hf, h2.symm⟩
  | error e0 =>
    rw [bind_error_pair] at h
    injection h with h1 h2
    exact absurd h1 (by simp)

theorem EvP.bind {p : Ev → Prop} {m : M α} {f : α → M β}
    (hm : EvP p m) (hf : ∀ a, EvP p (f a)) : EvP p (m >>= f) := by
  rw [bind_def]
  rcases m with ⟨r, t⟩
  cases r with
  | ok a =>
    rw [bind_ok_pair]
    intro e he
    rcases List.mem_append.mp he with h | h
    · exact hm e h
    · exact hf a e h
  | error e0 =>
    rw [bind_error_pair]
    exact hm

theorem EvP.pure {p : Ev → Prop} (a : α) : EvP p (M.pure a) := by
  intro e he
  simp [M.pure] at he

theorem EvP.purePure {p : Ev → Prop} (a : α) :
    EvP p (Pure.pure a : M α) := EvP.pure a

theorem EvP.emit {p : Ev → Prop} {e : Ev} (h : p e) : EvP p (emit e) := by
  intro x hx
  simp [SkpXml.emit] at hx
  rwa [hx]

theorem EvP.emitAll {p : Ev → Prop} {es : List Ev} (h : ∀ e ∈ es, p e) :
    EvP p (emitAll es) := h

theorem EvP.suCall {p : Ev → Prop} {name : String} (r : Except Unit α)
    (h : p (.call name true)) : EvP p (suCall name r) := by
  intro x hx
  simp [SkpXml.suCall] at hx
  rwa [hx]

theorem EvP.suCheck {p : Ev → Prop} {name : String} (r : Except Unit α)
    (h : p (.call name false)) : EvP p (suCheck name r) := by
  intro x hx
  simp [SkpXml.suCheck] at hx
  rwa [hx]

theorem EvP.suIgnored {p : Ev → Prop} {name : String} (v : α)
    (h : p (.call name false)) : EvP p (suIgnored name v) := by
  intro x hx
  simp [SkpXml.suIgnored] at hx
  rwa [hx]

theorem EvP.suCountGet {p : Ev → Prop} {nameNum nameGet : String}
    (d : Except Unit (List α)) (h1 : p (.call nameNum true))
    (h2 : p (.call nameGet true)) :
    EvP p (suCountGet nameNum nameGet d) := by
  unfold SkpXml.suCountGet
  refine EvP.bind (EvP.suCall _ h1) ?_
  intro n
  split
  · exact EvP.suCall _ h2
  · exact EvP.pure _

theorem EvP.mFor {p : Ev → Prop} {l : List α} {f : α → M Unit}
    (h : ∀ a ∈ l, EvP p (f a)) : EvP p (mFor l f) := by
  induction l with
  | nil => exact EvP.pure _
  | cons x xs ih =>
    exact EvP.bind (h x (by simp)) fun _ =>
      ih fun a ha => h a (by simp [ha])

theorem EvP.mMap {p : Ev → Prop} {l : List α} {f : α → M β}
    (h : ∀ a ∈ l, EvP p (f a)) : EvP p (mMap l f) := by
  induction l with
  | nil => exact EvP.pure _
  | cons x xs ih =>
    refine EvP.bind (h x (by simp)) fun y => ?_
    refine EvP.bind (ih fun a ha => h a (by simp [ha])) fun ys => ?_
    exact EvP.pure _

theorem EvP.weaken {p q : Ev → Prop} {m : M α} (h : EvP p m)
    (hpq : ∀ e, p e → q e) : EvP q m :=
  fun e he => hpq e (h e he)

/-! Lemmas about `evOk` and `callOk`. -/

theorem callOk_of_kind_ne {e : Ev} (h : e.kind ≠ EvKind.call) : callOk e :=
  fun _ _ hw => absurd (by rw [hw]; rfl) h

theorem evOk_call_wrapped {ks : List EvKind} (h : EvKind.call ∈ ks)
    (name : String) : evOk ks (.call name true) :=
  ⟨h, fun _ _ hw => by cases hw; exact Or.inl rfl⟩

theorem evOk_call_exempt {ks : List EvKind} (h : EvKind.call ∈ ks)
    {name : String} (hn : name ∈ exemptCalls) : evOk ks (.call name false) :=
  ⟨h, fun _ _ hw => by cases hw; exact Or.inr hn⟩

theorem evOk_nonCall {ks : List EvKind} {e : Ev} (hk : e.kind ∈ ks)
    (hc : e.kind ≠ EvKind.call) : evOk ks e :=
  ⟨hk, callOk_of_kind_ne hc⟩

theorem evOk_subset {ks ks' : List EvKind} (hsub : ∀ k ∈ ks, k ∈ ks') :
    ∀ e, evOk ks e → evOk ks' e :=
  fun _ he => ⟨hsub _ he.1, he.2⟩

theorem EvP.branch {p : Ev → Prop} {c : Prop} [Decidable c] {m1 m2 : M α}
    (h1 : EvP p m1) (h2 : EvP p m2) : EvP p (if c then m1 else m2) := by
  split
  · exact h1
  · exact h2

/-! Per-function trace characterizations: every event a function emits is
drawn from its kind list and every SDK call it makes is acceptable. -/

theorem getLayerNameRef_evOk (l : Option Layer) :
    EvP (evOk [.call]) (getLayerNameRef l) := by
  cases l
  · exact EvP.suCall _ (evOk_call_wrapped (by decide) _)
  · exact EvP.suCall _ (evOk_call_wrapped (by decide) _)

theorem getMaterialNameRef_evOk (m : Option Material) :
    EvP (evOk [.call]) (getMaterialNameRef m) := by
  cases m
  · exact EvP.suCall _ (evOk_call_wrapped (by decide) _)
  · exact EvP.suCall _ (evOk_call_wrapped (by decide) _)

theorem getCompDefNameRef_evOk (d : Option CompDef) :
    EvP (evOk [.call]) (getCompDefNameRef d) := by
  cases d
  · exact EvP.suCall _ (evOk_call_wrapped (by decide) _)
  · exact EvP.suCall _ (evOk_call_wrapped (by decide) _)

theorem matColorPart_evOk (type : MatType) (m : Material) :
    EvP (evOk [.call]) (matColorPart type m) := by
  unfold SkpXml.matColorPart
  refine EvP.branch ?_ (EvP.pure _)
  refine EvP.bind (EvP.suCheck _ (evOk_call_exempt (by decide) (by decide)))
    fun c => ?_
  cases c
  · exact EvP.pure _
  · exact EvP.pure _

theorem matAlphaPart_evOk (useOp : Bool) (m : Material) :
    EvP (evOk [.call]) (matAlphaPart useOp m) := by
  unfold SkpXml.matAlphaPart
  refine EvP.branch ?_ (EvP.pure _)
  exact EvP.bind (EvP.suCall _ (evOk_call_wrapped (by decide) _))
    fun a => EvP.pure _

theorem matTexturePart_evOk (type : MatType) (m : Material) :
    EvP (evOk [.call]) (matTexturePart type m) := by
  unfold SkpXml.matTexturePart
  refine EvP.branch ?_ (EvP.pure _)
  refine EvP.bind (EvP.suCheck _ (evOk_call_exempt (by decide) (by decide)))
    fun t => ?_
  cases t
  · exact EvP.pure _
  · refine EvP.bind (EvP.suCall _ (evOk_call_wrapped (by decide) _))
      fun path => ?_
    exact EvP.bind (EvP.suCall _ (evOk_call_wrapped (by decide) _))
      fun dims => EvP.pure _

theorem getMaterialInfo_evOk (m : Material) :
    EvP (evOk [.call]) (getMaterialInfo m) := by
  unfold SkpXml.getMaterialInfo
  refine EvP.bind (getMaterialNameRef_evOk _) fun name => ?_
  refine EvP.bind (EvP.suCall _ (evOk_call_wrapped (by decide) _)) fun ty => ?_
  refine EvP.bind (matColorPart_evOk _ _) fun colorPart => ?_
  refine EvP.bind (EvP.suCall _ (evOk_call_wrapped (by decide) _))
    fun useOp => ?_
  refine EvP.bind (matAlphaPart_evOk _ _) fun alphaPart => ?_
  exact EvP.bind (matTexturePart_evOk _ _) fun texPart => EvP.pure _

theorem layerMaterialPart_evOk (mat : Option Material) :
    EvP (evOk [.call]) (layerMaterialPart mat) := by
  cases mat with
  | none => exact EvP.pure _
  | some m =>
    exact EvP.bind (getMaterialInfo_evOk _) fun mi => EvP.pure _

theorem writeLayer_evOk (l : Option Layer) :
    EvP (evOk [.call, .statAddLayer, .writeLayerInfo]) (writeLayer l) := by
  cases l with
  | none => exact EvP.pure _
  | some layer =>
    unfold SkpXml.writeLayer
    refine EvP.bind ((getLayerNameRef_evOk _).weaken (evOk_subset (by decide)))
      fun name => ?_
    refine EvP.bind (EvP.suCheck _ (evOk_call_exempt (by decide) (by decide)))
      fun mat => ?_
    refine EvP.bind
      ((layerMaterialPart_evOk _).weaken (evOk_subset (by decide)))
      fun matPart => ?_
    refine EvP.bind (EvP.suCall _ (evOk_call_wrapped (by decide) _))
      fun vis => ?_
    refine EvP.bind (EvP.emit (evOk_nonCall (by decide) (by decide)))
      fun _ => ?_
    exact EvP.emit (evOk_nonCall (by simp [Ev.kind]) (by simp [Ev.kind]))

theorem writeLayers_evOk (opts : Options) (model : Model) :
    EvP (evOk [.call, .startLayers, .popParent, .statAddLayer,
      .writeLayerInfo]) (writeLayers opts model) := by
  unfold SkpXml.writeLayers
  refine EvP.branch ?_ (EvP.pure _)
  refine EvP.bind (EvP.emit (evOk_nonCall (by decide) (by decide))) fun _ => ?_
  refine EvP.bind (EvP.suCountGet _ (evOk_call_wrapped (by decide) _)
    (evOk_call_wrapped (by decide) _)) fun layers => ?_
  refine EvP.bind (EvP.mFor fun a _ =>
    (writeLayer_evOk a).weaken (evOk_subset (by decide))) fun _ => ?_
  exact EvP.emit (evOk_nonCall (by decide) (by decide))

theorem writeMaterial_evOk (m : Option Material) :
    EvP (evOk [.call, .writeMaterialInfo]) (writeMaterial m) := by
  cases m with
  | none => exact EvP.pure _
  | some mat =>
    unfold SkpXml.writeMaterial
    refine EvP.bind ((getMaterialInfo_evOk _).weaken (evOk_subset (by decide)))
      fun info => ?_
    exact EvP.emit (evOk_nonCall (by simp [Ev.kind]) (by simp [Ev.kind]))

theorem writeMaterials_evOk (opts : Options) (model : Model) :
    EvP (evOk [.call, .startMaterials, .popParent, .writeMaterialInfo])
      (writeMaterials opts model) := by
  unfold SkpXml.writeMaterials
  refine EvP.branch (EvP.branch ?_ ?_) (EvP.pure _)
  · refine EvP.bind (EvP.suCall _ (evOk_call_wrapped (by decide) _))
      fun n => ?_
    refine EvP.branch ?_ (EvP.pure _)
    refine EvP.bind (EvP.suCall _ (evOk_call_wrapped (by decide) _))
      fun layers => ?_
    refine EvP.bind (EvP.emit (evOk_nonCall (by decide) (by decide)))
      fun _ => ?_
    refine EvP.bind (EvP.mFor fun a _ => ?_) fun _ => ?_
    · refine EvP.bind (EvP.suCheck _ (evOk_call_exempt (by decide) (by decide)))
        fun mat => ?_
      cases mat
      · exact EvP.pure _
      · exact (writeMaterial_evOk _).weaken (evOk_subset (by decide))
    exact EvP.emit (evOk_nonCall (by decide) (by decide))
  · refine EvP.bind (EvP.suCall _ (evOk_call_wrapped (by decide) _))
      fun n => ?_
    refine EvP.branch ?_ (EvP.pure _)
    refine EvP.bind (EvP.emit (evOk_nonCall (by decide) (by decide)))
      fun _ => ?_
    refine EvP.bind (EvP.suCall _ (evOk_call_wrapped (by decide) _))
      fun mats => ?_
    refine EvP.bind (EvP.mFor fun a _ =>
      (writeMaterial_evOk a).weaken (evOk_subset (by decide))) fun _ => ?_
    exact EvP.emit (evOk_nonCall (by decide) (by decide))

theorem writeTextureFiles_evOk (env : Env) (opts : Options) :
    EvP (evOk [.loadAllTextures, .statSetTextures, .writeAllTexturesDir,
      .call]) (writeTextureFiles env opts) := by
  unfold SkpXml.writeTextureFiles
  refine EvP.branch ?_ (EvP.pure _)
  refine EvP.bind (EvP.emit (evOk_nonCall (by simp [Ev.kind]) (by simp [Ev.kind])))
    fun _ => ?_
  refine EvP.bind (EvP.emit (evOk_nonCall (by simp [Ev.kind]) (by simp [Ev.kind])))
    fun _ => ?_
  refine EvP.branch ?_ (EvP.pure _)
  refine EvP.bind (EvP.emit (evOk_nonCall (by simp [Ev.kind]) (by simp [Ev.kind])))
    fun _ => ?_
  exact EvP.bind (EvP.suCall _ (evOk_call_wrapped (by decide) _))
    fun _ => EvP.pure _

theorem instLayerName_evOk (l : Option Layer) :
    EvP (evOk [.call]) (instLayerName l) := by
  cases l with
  | none => exact EvP.pure _
  | some layer =>
    exact EvP.bind (getLayerNameRef_evOk _) fun nm => EvP.pure _

theorem instMaterialName_evOk (m : Option Material) :
    EvP (evOk [.call]) (instMaterialName m) := by
  cases m with
  | none => exact EvP.pure _
  | some mat =>
    exact EvP.bind (getMaterialNameRef_evOk _) fun nm => EvP.pure _

theorem writeInstance_evOk (inst : CompInstance) :
    EvP (evOk [.call, .writeInstanceInfo]) (writeInstance inst) := by
  unfold SkpXml.writeInstance
  refine EvP.bind (EvP.suCall _ (evOk_call_wrapped (by decide) _))
    fun defn => ?_
  refine EvP.bind (EvP.suIgnored _ (evOk_call_exempt (by decide) (by decide)))
    fun layer => ?_
  refine EvP.bind ((instLayerName_evOk _).weaken (evOk_subset (by decide)))
    fun layerName => ?_
  refine EvP.bind (EvP.suIgnored _ (evOk_call_exempt (by decide) (by decide)))
    fun mat => ?_
  refine EvP.bind ((instMaterialName_evOk _).weaken (evOk_subset (by decide)))
    fun matName => ?_
  refine EvP.bind ((getCompDefNameRef_evOk _).weaken (evOk_subset (by decide)))
    fun defName => ?_
  refine EvP.bind (EvP.suCall _ (evOk_call_wrapped (by decide) _)) fun t => ?_
  exact EvP.emit (evOk_nonCall (by simp [Ev.kind]) (by simp [Ev.kind]))

theorem instancesPart_evOk (is : Except Unit (List CompInstance)) :
    EvP (evOk [.call, .writeInstanceInfo]) (instancesPart is) := by
  unfold SkpXml.instancesPart
  refine EvP.bind (EvP.suCountGet _ (evOk_call_wrapped (by decide) _)
    (evOk_call_wrapped (by decide) _)) fun l => ?_
  exact EvP.mFor fun a _ => writeInstance_evOk a

theorem loopVertexInfos_evOk (lp : Loop) :
    EvP (evOk [.call]) (loopVertexInfos lp) := by
  unfold SkpXml.loopVertexInfos
  refine EvP.bind (EvP.suCountGet _ (evOk_call_wrapped (by decide) _)
    (evOk_call_wrapped (by decide) _)) fun vs => ?_
  exact EvP.mMap fun v _ =>
    EvP.bind (EvP.suCall _ (evOk_call_wrapped (by decide) _))
      fun p => EvP.pure _

theorem writeFace_evOk (f : Option Face) :
    EvP (evOk [.call, .statAddFace, .writeFaceInfo]) (writeFace f) := by
  cases f with
  | none => exact EvP.pure _
  | some face =>
    unfold SkpXml.writeFace
    refine EvP.bind (EvP.suCall _ (evOk_call_wrapped (by decide) _))
      fun outer => ?_
    refine EvP.bind ((loopVertexInfos_evOk _).weaken (evOk_subset (by decide)))
      fun vs => ?_
    refine EvP.bind (EvP.emit (evOk_nonCall (by decide) (by decide)))
      fun _ => ?_
    refine EvP.bind (EvP.emit (evOk_nonCall (by simp [Ev.kind]) (by simp [Ev.kind])))
      fun _ => ?_
    refine EvP.bind (EvP.suCountGet _ (evOk_call_wrapped (by decide) _)
      (evOk_call_wrapped (by decide) _)) fun inners => ?_
    refine EvP.mFor fun lp _ => ?_
    refine EvP.bind ((loopVertexInfos_evOk _).weaken (evOk_subset (by decide)))
      fun vsi => ?_
    refine EvP.bind (EvP.emit (evOk_nonCall (by decide) (by decide)))
      fun _ => ?_
    exact EvP.emit (evOk_nonCall (by simp [Ev.kind]) (by simp [Ev.kind]))

theorem facesPart_evOk (opts : Options)
    (fs : Except Unit (List (Option Face))) :
    EvP (evOk [.call, .statAddFace, .writeFaceInfo, .push, .pop])
      (facesPart opts fs) := by
  unfold SkpXml.facesPart
  refine EvP.branch ?_ (EvP.pure _)
  refine EvP.bind (EvP.suCountGet _ (evOk_call_wrapped (by decide) _)
    (evOk_call_wrapped (by decide) _)) fun l => ?_
  refine EvP.mFor fun f _ => ?_
  refine EvP.bind (EvP.emit (evOk_nonCall (by simp [Ev.kind]) (by simp [Ev.kind])))
    fun _ => ?_
  refine EvP.bind ((writeFace_evOk _).weaken (evOk_subset (by decide)))
    fun _ => ?_
  exact EvP.emit (evOk_nonCall (by decide) (by decide))

mutual
theorem writeEntities_evOk (opts : Options) (ents : Entities) :
    EvP (evOk [.call, .writeInstanceInfo, .statAddFace, .writeFaceInfo,
      .push, .pop, .startGroup, .writeTransformation, .popParent])
      (writeEntities opts ents) := by
  cases ents with
  | mk is gs fs es =>
    unfold SkpXml.writeEntities
    refine EvP.bind ((instancesPart_evOk _).weaken (evOk_subset (by decide)))
      fun _ => ?_
    refine EvP.bind (groupsPart_evOk opts gs) fun _ => ?_
    exact (facesPart_evOk _ _).weaken (evOk_subset (by decide))

theorem groupsPart_evOk (opts : Options) (gs : Except Unit (List Group)) :
    EvP (evOk [.call, .writeInstanceInfo, .statAddFace, .writeFaceInfo,
      .push, .pop, .startGroup, .writeTransformation, .popParent])
      (groupsPart opts gs) := by
  cases gs with
  | error e =>
    unfold SkpXml.groupsPart
    intro x hx
    simp at hx
    rw [hx]
    exact evOk_call_wrapped (by decide) _
  | ok l =>
    unfold SkpXml.groupsPart
    refine EvP.bind (EvP.suCall _ (evOk_call_wrapped (by decide) _))
      fun _ => ?_
    refine EvP.branch ?_ (EvP.pure _)
    refine EvP.bind (EvP.suCall _ (evOk_call_wrapped (by decide) _))
      fun _ => ?_
    exact writeGroupList_evOk opts l

theorem writeGroupList_evOk (opts : Options) (l : List Group) :
    EvP (evOk [.call, .writeInstanceInfo, .statAddFace, .writeFaceInfo,
      .push, .pop, .startGroup, .writeTransformation, .popParent])
      (writeGroupList opts l) := by
  cases l with
  | nil =>
    unfold SkpXml.writeGroupList
    exact EvP.pure _
  | cons g rest =>
    unfold SkpXml.writeGroupList
    exact EvP.bind (writeGroup_evOk opts g) fun _ =>
      writeGroupList_evOk opts rest

theorem writeGroup_evOk (opts : Options) (g : Group) :
    EvP (evOk [.call, .writeInstanceInfo, .statAddFace, .writeFaceInfo,
      .push, .pop, .startGroup, .writeTransformation, .popParent])
      (writeGroup opts g) := by
  cases g with
  | mk ge gt =>
    cases ge with
    | error e =>
      unfold SkpXml.writeGroup
      intro x hx
      simp at hx
      rw [hx]
      exact evOk_call_wrapped (by decide) _
    | ok ents =>
      unfold SkpXml.writeGroup
      refine EvP.bind (EvP.suCall _ (evOk_call_wrapped (by decide) _))
        fun _ => ?_
      refine EvP.bind (EvP.emit (evOk_nonCall (by simp [Ev.kind]) (by simp [Ev.kind])))
        fun _ => ?_
      refine EvP.bind (EvP.emit (evOk_nonCall (by decide) (by decide)))
        fun _ => ?_
      refine EvP.bind (writeEntities_evOk opts ents) fun _ => ?_
      refine EvP.bind (EvP.suCall _ (evOk_call_wrapped (by decide) _))
        fun t => ?_
      refine EvP.bind (EvP.emit (evOk_nonCall (by simp [Ev.kind]) (by simp [Ev.kind])))
        fun _ => ?_
      refine EvP.bind (EvP.emit (evOk_nonCall (by decide) (by decide)))
        fun _ => ?_
      exact EvP.emit (evOk_nonCall (by decide) (by decide))
end

theorem writeGeometry_evOk (opts : Options) (model : Model) :
    EvP (evOk [.call, .startGeometry, .writeInstanceInfo, .statAddFace,
      .writeFaceInfo, .push, .pop, .startGroup, .writeTransformation,
      .popParent]) (writeGeometry opts model) := by
  unfold SkpXml.writeGeometry
  refine EvP.branch ?_ (EvP.pure _)
  refine EvP.bind (EvP.suCall _ (evOk_call_wrapped (by decide) _))
    fun ents => ?_
  refine EvP.bind (EvP.emit (evOk_nonCall (by decide) (by decide))) fun _ => ?_
  refine EvP.bind ((writeEntities_evOk _ _).weaken (evOk_subset (by decide)))
    fun _ => ?_
  exact EvP.emit (evOk_nonCall (by decide) (by decide))

theorem edgeLayerPart_evOk (opts : Options) (cl : Option Layer) (edge : Edge) :
    EvP (evOk [.call]) (edgeLayerPart opts cl edge) := by
  unfold SkpXml.edgeLayerPart
  refine EvP.branch ?_ (EvP.pure _)
  cases cl with
  | none => exact EvP.pure _
  | some l =>
    refine EvP.bind (EvP.suCall _ (evOk_call_wrapped (by decide) _))
      fun ol => ?_
    exact EvP.bind (getLayerNameRef_evOk _) fun nm => EvP.pure _

theorem getEdgeInfo_evOk (opts : Options) (cl : Option Layer) (cc : Color)
    (edge : Edge) : EvP (evOk [.call]) (getEdgeInfo opts cl cc edge) := by
  unfold SkpXml.getEdgeInfo
  refine EvP.bind (edgeLayerPart_evOk _ _ _) fun layerPart => ?_
  refine EvP.bind ?_ fun colorPart => ?_
  · unfold SkpXml.edgeColorPart
    exact EvP.branch (EvP.pure _) (EvP.pure _)
  refine EvP.bind (EvP.suCall _ (evOk_call_wrapped (by decide) _)) fun sv => ?_
  refine EvP.bind (EvP.suCall _ (evOk_call_wrapped (by decide) _)) fun sp => ?_
  refine EvP.bind (EvP.suCall _ (evOk_call_wrapped (by decide) _)) fun ev => ?_
  exact EvP.bind (EvP.suCall _ (evOk_call_wrapped (by decide) _))
    fun ep => EvP.pure _

theorem handleProgress_evOk (env : Env) (k pct : Nat) (msg : String) :
    EvP (evOk [.checkCancel, .progress]) (handleProgress env k pct msg) := by
  intro e he
  simp [SkpXml.handleProgress] at he
  rcases he with h | h
  · rw [h]; exact evOk_nonCall (by simp [Ev.kind]) (by simp [Ev.kind])
  · rw [h]; exact evOk_nonCall (by simp [Ev.kind]) (by simp [Ev.kind])

theorem isCancelled_evOk (env : Env) (k : Nat) :
    EvP (evOk [.checkCancel]) (isCancelled env k) := by
  intro e he
  simp [SkpXml.isCancelled] at he
  rw [he]
  exact evOk_nonCall (by simp [Ev.kind]) (by simp [Ev.kind])

theorem convertMain_evOk (env : Env) (opts : Options) (model : Model) :
    EvP (evOk [.checkCancel, .progress, .call, .loadAllTextures,
      .statSetTextures, .writeAllTexturesDir, .writeHeader, .startLayers,
      .startMaterials, .startGeometry, .startGroup, .popParent,
      .writeLayerInfo, .writeMaterialInfo, .writeInstanceInfo,
      .writeTransformation, .writeFaceInfo, .statAddLayer, .statAddFace,
      .push, .pop, .close]) (convertMain env opts model) := by
  unfold SkpXml.convertMain
  refine EvP.bind ((handleProgress_evOk _ _ _ _).weaken (evOk_subset (by decide)))
    fun _ => ?_
  refine EvP.bind ((writeTextureFiles_evOk _ _).weaken (evOk_subset (by decide)))
    fun _ => ?_
  refine EvP.bind (EvP.suCall _ (evOk_call_wrapped (by decide) _)) fun v => ?_
  refine EvP.bind (EvP.emit (evOk_nonCall (by simp [Ev.kind]) (by simp [Ev.kind])))
    fun _ => ?_
  refine EvP.bind ((handleProgress_evOk _ _ _ _).weaken (evOk_subset (by decide)))
    fun _ => ?_
  refine EvP.bind ((writeLayers_evOk _ _).weaken (evOk_subset (by decide)))
    fun _ => ?_
  refine EvP.bind ((handleProgress_evOk _ _ _ _).weaken (evOk_subset (by decide)))
    fun _ => ?_
  refine EvP.bind ((writeMaterials_evOk _ _).weaken (evOk_subset (by decide)))
    fun _ => ?_
  refine EvP.bind ((handleProgress_evOk _ _ _ _).weaken (evOk_subset (by decide)))
    fun _ => ?_
  refine EvP.bind ((writeGeometry_evOk _ _).weaken (evOk_subset (by decide)))
    fun _ => ?_
  refine EvP.bind ((isCancelled_evOk _ _).weaken (evOk_subset (by decide)))
    fun c => ?_
  refine EvP.bind (EvP.emit (evOk_nonCall (by simp [Ev.kind]) (by simp [Ev.kind])))
    fun _ => ?_
  refine EvP.bind ((handleProgress_evOk _ _ _ _).weaken (evOk_subset (by decide)))
    fun _ => ?_
  exact EvP.pure _

/-! Inversion lemmas for the primitive computations. -/

theorem handleProgress_eq {env : Env} {k pct : Nat} {msg : String} {a : Unit}
    {t : List Ev} (h : handleProgress env k pct msg = (.ok a, t)) :
    t = [Ev.checkCancel (env.cancel k), Ev.progress pct msg] := by
  unfold SkpXml.handleProgress at h
  injection h with h1 h2
  exact h2.symm

theorem isCancelled_eq {env : Env} {k : Nat} {c : Bool} {t : List Ev}
    (h : isCancelled env k = (.ok c, t)) :
    c = env.cancel k ∧ t = [Ev.checkCancel (env.cancel k)] := by
  unfold SkpXml.isCancelled at h
  injection h with h1 h2
  exact ⟨by injection h1 with h3; exact h3.symm, h2.symm⟩

theorem emit_eq {e : Ev} {a : Unit} {t : List Ev}
    (h : emit e = (.ok a, t)) : t = [e] := by
  unfold SkpXml.emit at h
  injection h with h1 h2
  exact h2.symm

theorem suCall_eq_ok {r : Except Unit α} {name : String} {v : α}
    {t : List Ev} (h : suCall name r = (.ok v, t)) :
    r = .ok v ∧ t = [Ev.call name true] := by
  unfold SkpXml.suCall at h
  injection h with h1 h2
  exact ⟨h1, h2.symm⟩

theorem mpure_eq {x y : α} {t : List Ev} (h : M.pure x = (.ok y, t)) :
    y = x ∧ t = [] := by
  unfold M.pure at h
  injection h with h1 h2
  exact ⟨by injection h1 with h3; exact h3.symm, h2.symm⟩

/-- Success inversion for `convertMain`: a successful run is a completed
run, every phase ran successfully, and the trace is the phases' traces in
order, with a cancellation check at each progress report and one more
feeding the close flag. -/
theorem convertMain_ok {env : Env} {opts : Options} {model : Model}
    {r : ConvertR} {tr : List Ev}
    (h : convertMain env opts model = (.ok r, tr)) :
    r = .done ∧ ∃ v t1 t2 t3 t4,
      writeTextureFiles env opts = (.ok (), t1) ∧
      model.version = .ok v ∧
      writeLayers opts model = (.ok (), t2) ∧
      writeMaterials opts model = (.ok (), t3) ∧
      writeGeometry opts model = (.ok (), t4) ∧
      tr = [Ev.checkCancel (env.cancel 0),
            Ev.progress 0 "Writing Texture Files..."] ++ t1 ++
        [Ev.call "SUModelGetVersion" true, Ev.writeHeader v,
         Ev.checkCancel (env.cancel 1), Ev.progress 10 "Writing Layers..."] ++
        t2 ++
        [Ev.checkCancel (env.cancel 2),
         Ev.progress 20 "Writing Materials..."] ++ t3 ++
        [Ev.checkCancel (env.cancel 3),
         Ev.progress 60 "Writing Geometry..."] ++ t4 ++
        [Ev.checkCancel (env.cancel 4), Ev.close (env.cancel 4),
         Ev.checkCancel (env.cancel 5), Ev.progress 100 "Export Complete"] := by
  unfold SkpXml.convertMain at h
  obtain ⟨⟨⟩, s0, _, h0, hA, rfl⟩ := bind_eq_ok h
  obtain rfl := handleProgress_eq h0
  obtain ⟨⟨⟩, t1, _, h1, hB, rfl⟩ := bind_eq_ok hA
  obtain ⟨v, sv, _, hv, hC, rfl⟩ := bind_eq_ok hB
  obtain ⟨hver, rfl⟩ := suCall_eq_ok hv
  obtain ⟨⟨⟩, sh, _, hh, hD, rfl⟩ := bind_eq_ok hC
  obtain rfl := emit_eq hh
  obtain ⟨⟨⟩, s1, _, hp1, hE, rfl⟩ := bind_eq_ok hD
  obtain rfl := handleProgress_eq hp1
  obtain ⟨⟨⟩, t2, _, h2, hF, rfl⟩ := bind_eq_ok hE
  obtain ⟨⟨⟩, s2, _, hp2, hG, rfl⟩ := bind_eq_ok hF
  obtain rfl := handleProgress_eq hp2
  obtain ⟨⟨⟩, t3, _, h3, hH, rfl⟩ := bind_eq_ok hG
  obtain ⟨⟨⟩, s3, _, hp3, hI, rfl⟩ := bind_eq_ok hH
  obtain rfl := handleProgress_eq hp3
  obtain ⟨⟨⟩, t4, _, h4, hJ, rfl⟩ := bind_eq_ok hI
  obtain ⟨c, sc, _, hc, hK, rfl⟩ := bind_eq_ok hJ
  obtain ⟨rfl, rfl⟩ := isCancelled_eq hc
  obtain ⟨⟨⟩, scl, _, hcl, hL, rfl⟩ := bind_eq_ok hK
  obtain rfl := emit_eq hcl
  obtain ⟨⟨⟩, s5, _, hp5, hM, rfl⟩ := bind_eq_ok hL
  obtain rfl := handleProgress_eq hp5
  obtain ⟨rfl, rfl⟩ := mpure_eq hM
  exact ⟨rfl, v, t1, t2, t3, t4, h1, hver, h2, h3, h4, by simp⟩

/-- Success inversion for `convert`: a successful conversion opened the
file, ran all phases, and its trace is the initialization prefix, the main
trace, and the release events. -/
theorem convert_true {env : Env} {opts : Options} {tr : List Ev}
    (h : convert env opts = (true, tr)) :
    ∃ model mainTr,
      env.createModel = .ok model ∧
      env.createWriter = .ok () ∧
      env.openOk = true ∧
      convertMain env opts model = (.ok .done, mainTr) ∧
      tr = [Ev.initSDK, Ev.call "SUModelCreateFromFile" true,
            Ev.call "SUTextureWriterCreate" true, Ev.openFile true] ++
        mainTr ++
        [Ev.releaseTextureWriter, Ev.releaseModel, Ev.terminate] := by
  unfold SkpXml.convert at h
  rcases hb : convertBody env opts with ⟨r, btr⟩
  rw [hb] at h
  rcases r with r | r
  · injection h with h1 h2
    simp at h1
  · cases r with
    | early =>
      injection h with h1 h2
      simp at h1
    | done =>
      injection h with h1 h2
      unfold SkpXml.convertBody at hb
      obtain ⟨⟨⟩, si, _, hi, hbA, rfl⟩ := bind_eq_ok hb
      obtain rfl := emit_eq hi
      obtain ⟨model, sm, _, hm, hbB, rfl⟩ := bind_eq_ok hbA
      obtain ⟨hcm, rfl⟩ := suCall_eq_ok hm
      obtain ⟨w, sw, _, hw, hbC, rfl⟩ := bind_eq_ok hbB
      obtain ⟨hcw, rfl⟩ := suCall_eq_ok hw
      obtain ⟨⟨⟩, so, rest, ho, hbD, rfl⟩ := bind_eq_ok hbC
      obtain rfl := emit_eq ho
      rcases hopen : env.openOk with _ | _
      · rw [hopen] at hbD
        simp only [if_pos rfl] at hbD
        obtain ⟨⟨⟩, se, _, he, hbE, rfl⟩ := bind_eq_ok hbD
        obtain ⟨hdone, rfl⟩ := mpure_eq hbE
        exact absurd hdone (by simp)
      · rw [hopen] at hbD
        rw [if_neg (by simp : ¬(true = false))] at hbD
        cases w
        refine ⟨model, rest, hcm, hcw, rfl, hbD, ?_⟩
        rw [← h2, hopen]
        have hwv : writerValid env = true := by
          simp [writerValid, hcm, hcw, Except.isOk, Except.toBool]
        have hmv : modelValid env = true := by
          simp [modelValid, hcm, Except.isOk, Except.toBool]
        rw [hwv, hmv]
        simp [releaseModelObjects]

/-! Forward evaluation of `convertBody` on each kind of environment. -/

theorem convertBody_createFail (env : Env) (opts : Options)
    (h : env.createModel = .error ()) :
    convertBody env opts =
      (.error (), [Ev.initSDK, Ev.call "SUModelCreateFromFile" true]) := by
  simp [convertBody, bind_def, bind_ok_pair, bind_error_pair, emit, suCall, h]

theorem convertBody_writerFail (env : Env) (opts : Options) (model : Model)
    (h : env.createModel = .ok model) (h2 : env.createWriter = .error ()) :
    convertBody env opts =
      (.error (), [Ev.initSDK, Ev.call "SUModelCreateFromFile" true,
        Ev.call "SUTextureWriterCreate" true]) := by
  simp [convertBody, bind_def, bind_ok_pair, bind_error_pair, emit, suCall,
    h, h2]

theorem convertBody_openFail (env : Env) (opts : Options) (model : Model)
    (h : env.createModel = .ok model) (h2 : env.createWriter = .ok ())
    (h3 : env.openOk = false) :
    convertBody env opts =
      (.ok .early, [Ev.initSDK, Ev.call "SUModelCreateFromFile" true,
        Ev.call "SUTextureWriterCreate" true, Ev.openFile false] ++
        releaseModelObjects true true) := by
  simp [convertBody, bind_def, bind_ok_pair, bind_error_pair, emit, suCall,
    emitAll, M.pure, h, h2, h3]

theorem convertBody_open (env : Env) (opts : Options) (model : Model)
    (h : env.createModel = .ok model) (h2 : env.createWriter = .ok ())
    (h3 : env.openOk = true) :
    convertBody env opts =
      ((convertMain env opts model).1,
        [Ev.initSDK, Ev.call "SUModelCreateFromFile" true,
         Ev.call "SUTextureWriterCreate" true, Ev.openFile true] ++
        (convertMain env opts model).2) := by
  simp [convertBody, bind_def, bind_ok_pair, bind_error_pair, emit, suCall,
    M.pure, h, h2, h3]

theorem convert_of_body_error {env : Env} {opts : Options} {e : Unit}
    {tr : List Ev} (h : convertBody env opts = (.error e, tr)) :
    convert env opts = (false, tr ++ [Ev.close true] ++
      releaseModelObjects (writerValid env) (modelValid env)) := by
  simp [convert, h]

/-! Counting events. -/

theorem countKind_append (k : EvKind) (a b : List Ev) :
    countKind k (a ++ b) = countKind k a + countKind k b := by
  induction a with
  | nil => simp [countKind]
  | cons x xs ih =>
    simp [countKind, ih]
    ring

theorem countKind_eq_zero {k : EvKind} {tr : List Ev}
    (h : ∀ e ∈ tr, e.kind ≠ k) : countKind k tr = 0 := by
  induction tr with
  | nil => rfl
  | cons x xs ih =>
    have hx := h x (by simp)
    simp [countKind, hx]
    exact ih fun e he => h e (by simp [he])

theorem countKind_eq_zero' (k : EvKind) {tr : List Ev}
    (h : ∀ e ∈ tr, e.kind ≠ k) : countKind k tr = 0 :=
  countKind_eq_zero h

/-- The release kinds never occur in a `convertMain` trace. -/
theorem convertMain_release_free (env : Env) (opts : Options)
    (model : Model) :
    countKind .terminate (convertMain env opts model).2 = 0 ∧
    countKind .releaseTextureWriter (convertMain env opts model).2 = 0 ∧
    countKind .releaseModel (convertMain env opts model).2 = 0 := by
  have hev := convertMain_evOk env opts model
  refine ⟨countKind_eq_zero ?_, countKind_eq_zero ?_, countKind_eq_zero ?_⟩ <;>
    · intro e he
      have hk := (hev e he).1
      intro hkk
      rw [hkk] at hk
      revert hk
      decide

/-- Shared helper: on every run of `Convert`, the SDK session is terminated
exactly once, and the texture-writer and model handles are each released
exactly once when valid and never otherwise. -/
theorem convert_release_once (env : Env) (opts : Options) :
    countKind .terminate (convert env opts).2 = 1 ∧
    countKind .releaseTextureWriter (convert env opts).2 =
      (if writerValid env = true then 1 else 0) ∧
    countKind .releaseModel (convert env opts).2 =
      (if modelValid env = true then 1 else 0) := by
  have hisok : ∀ (x : Except Unit Model), x.isOk = true ↔ ∃ m, x = .ok m := by
    intro x
    cases x <;> simp [Except.isOk, Except.toBool]
  rcases hcm : env.createModel with e | model
  · cases e
    have hwv : writerValid env = false := by
      simp [writerValid, hcm, Except.isOk, Except.toBool]
    have hmv : modelValid env = false := by
      simp [modelValid, hcm, Except.isOk, Except.toBool]
    rw [convert_of_body_error (convertBody_createFail env opts hcm), hwv, hmv]
    simp [releaseModelObjects, countKind_append, countKind, Ev.kind]
  · rcases hcw : env.createWriter with e | w
    · cases e
      have hwv : writerValid env = false := by
        simp [writerValid, hcm, hcw, Except.isOk, Except.toBool]
      have hmv : modelValid env = true := by
        simp [modelValid, hcm, Except.isOk, Except.toBool]
      rw [convert_of_body_error
        (convertBody_writerFail env opts model hcm hcw), hwv, hmv]
      simp [releaseModelObjects, countKind_append, countKind, Ev.kind]
    · cases w
      have hwv : writerValid env = true := by
        simp [writerValid, hcm, hcw, Except.isOk, Except.toBool]
      have hmv : modelValid env = true := by
        simp [modelValid, hcm, Except.isOk, Except.toBool]
      rcases hopen : env.openOk with _ | _
      · have hb := convertBody_openFail env opts model hcm hcw hopen
        rw [hwv, hmv]
        simp only [SkpXml.convert, hb]
        simp [releaseModelObjects, countKind_append, countKind, Ev.kind]
      · have hb := convertBody_open env opts model hcm hcw hopen
        obtain ⟨hz1, hz2, hz3⟩ := convertMain_release_free env opts model
        rcases hm : convertMain env opts model with ⟨r, mtr⟩
        rw [hm] at hb hz1 hz2 hz3
        rcases r with e | r
        · cases e
          rw [convert_of_body_error hb, hwv, hmv]
          simp [releaseModelObjects, countKind_append, countKind, Ev.kind,
            hz1, hz2, hz3, hwv, hmv]
        · obtain ⟨rfl, -⟩ := convertMain_ok hm
          rw [hwv, hmv]
          simp only [SkpXml.convert, hb]
          simp [releaseModelObjects, countKind_append, countKind, Ev.kind,
            hz1, hz2, hz3, hwv, hmv]

/-! Membership and projection utilities. -/

theorem mem_bind_left {m : M α} {f : α → M β} {e : Ev} (he : e ∈ m.2) :
    e ∈ (m >>= f).2 := by
  rw [bind_def]
  rcases m with ⟨r, t⟩
  cases r with
  | ok a =>
    rw [bind_ok_pair]
    exact List.mem_append.mpr (Or.inl he)
  | error e0 => exact he

theorem mem_bind_right {m : M α} {f : α → M β} {a : α} {t : List Ev}
    (hm : m = (.ok a, t)) {e : Ev} (he : e ∈ (f a).2) :
    e ∈ (m >>= f).2 := by
  rw [bind_def, hm, bind_ok_pair]
  rcases hf : f a with ⟨r2, t2⟩
  rw [hf] at he
  exact List.mem_append.mpr (Or.inr he)

theorem mem_bind_right' {m : M α} {f : α → M β} (a : α) {t : List Ev}
    (hm : m = (.ok a, t)) {e : Ev} (he : e ∈ (f a).2) :
    e ∈ (m >>= f).2 :=
  mem_bind_right hm he

theorem mem_emit (e : Ev) : e ∈ (emit e).2 := by
  simp [SkpXml.emit]

theorem mFor_eq_ok {l : List α} {f : α → M Unit} {x : α} {xs : List α}
    {u : Unit} {tr : List Ev} (hl : l = x :: xs)
    (h : mFor l f = (.ok u, tr)) :
    ∃ t1 t2, f x = (.ok (), t1) ∧ mFor xs f = (.ok (), t2) ∧
      tr = t1 ++ t2 := by
  subst hl
  unfold SkpXml.mFor at h
  obtain ⟨⟨⟩, t1, t2, h1, h2, rfl⟩ := bind_eq_ok h
  rcases hm : mFor xs f with ⟨r, t3⟩
  rw [hm] at h2
  cases r with
  | ok b =>
    cases b
    injection h2 with h3 h4
    exact ⟨t1, t3, h1, rfl, by rw [h4]⟩
  | error e0 =>
    injection h2 with h3 h4
    exact absurd h3 (by simp)

theorem mFor_ok_mem {l : List α} {f : α → M Unit} {u : Unit} {tr : List Ev}
    (h : mFor l f = (.ok u, tr)) {a : α} (ha : a ∈ l) :
    ∃ t, f a = (.ok (), t) ∧ ∀ e ∈ t, e ∈ tr := by
  induction l generalizing tr with
  | nil => cases ha
  | cons x xs ih =>
    obtain ⟨t1, t2, h1, h2, rfl⟩ := mFor_eq_ok rfl h
    rcases List.mem_cons.mp ha with rfl | ha2
    · exact ⟨t1, h1, fun e he => List.mem_append.mpr (Or.inl he)⟩
    · obtain ⟨t, ht, hsub⟩ := ih h2 ha2
      exact ⟨t, ht, fun e he => List.mem_append.mpr (Or.inr (hsub e he))⟩

theorem progressEvents_nil {tr : List Ev}
    (h : ∀ e ∈ tr, e.kind ≠ EvKind.progress) : progressEvents tr = [] := by
  unfold progressEvents
  rw [List.filterMap_eq_nil_iff]
  intro e he
  have hk := h e he
  cases e <;> first | rfl | exact absurd rfl hk

theorem progressEvents_append (a b : List Ev) :
    progressEvents (a ++ b) = progressEvents a ++ progressEvents b := by
  unfold progressEvents
  exact List.filterMap_append a b _

theorem closeFlags_nil {tr : List Ev}
    (h : ∀ e ∈ tr, e.kind ≠ EvKind.close) : closeFlags tr = [] := by
  unfold closeFlags
  rw [List.filterMap_eq_nil_iff]
  intro e he
  have hk := h e he
  cases e <;> first | rfl | exact absurd rfl hk

theorem closeFlags_append (a b : List Ev) :
    closeFlags (a ++ b) = closeFlags a ++ closeFlags b := by
  unfold closeFlags
  exact List.filterMap_append a b _

theorem pulseEvents_nil {tr : List Ev}
    (h : ∀ e ∈ tr, e.kind ≠ EvKind.progress ∧ e.kind ≠ EvKind.checkCancel) :
    pulseEvents tr = [] := by
  unfold pulseEvents
  rw [List.filter_eq_nil_iff]
  intro e he
  obtain ⟨h1, h2⟩ := h e he
  simp [h1, h2]

theorem pulseEvents_append (a b : List Ev) :
    pulseEvents (a ++ b) = pulseEvents a ++ pulseEvents b := by
  unfold pulseEvents
  exact List.filter_append a b

theorem faceInfos_nil {tr : List Ev}
    (h : ∀ e ∈ tr, e.kind ≠ EvKind.writeFaceInfo) : faceInfos tr = [] := by
  unfold faceInfos
  rw [List.filterMap_eq_nil_iff]
  intro e he
  have hk := h e he
  cases e <;> first | rfl | exact absurd rfl hk

theorem faceInfos_append (a b : List Ev) :
    faceInfos (a ++ b) = faceInfos a ++ faceInfos b := by
  unfold faceInfos
  exact List.filterMap_append a b _

theorem recs_append (a b : List Ev) : recs (a ++ b) = recs a ++ recs b := by
  unfold recs
  exact List.filterMap_append a b _

theorem recOf_eq_some {e : Ev} {r : Rec} (h : recOf e = some r) :
    (e.kind = .writeInstanceInfo ∧ r = .instanceRec) ∨
    (e.kind = .startGroup ∧ r = .startGroup) ∨
    (e.kind = .writeTransformation ∧ r = .transformRec) ∨
    (e.kind = .writeFaceInfo ∧ r = .faceRec) := by
  cases e <;> simp [recOf, Ev.kind] at h ⊢ <;> exact h.symm

theorem recs_all_instance {tr : List Ev}
    (h : ∀ e ∈ tr, e.kind ∈ ([.call, .writeInstanceInfo] : List EvKind)) :
    ∀ r ∈ recs tr, r = Rec.instanceRec := by
  intro r hr
  obtain ⟨e, he, hre⟩ := List.mem_filterMap.mp hr
  have hk := h e he
  rcases recOf_eq_some hre with ⟨h1, rfl⟩ | ⟨h1, rfl⟩ | ⟨h1, rfl⟩ | ⟨h1, rfl⟩ <;>
      rw [h1] at hk <;>
    first
    | rfl
    | exact absurd hk (by decide)

theorem recs_all_face {tr : List Ev}
    (h : ∀ e ∈ tr, e.kind ∈
      ([.call, .statAddFace, .writeFaceInfo, .push, .pop] : List EvKind)) :
    ∀ r ∈ recs tr, r = Rec.faceRec := by
  intro r hr
  obtain ⟨e, he, hre⟩ := List.mem_filterMap.mp hr
  have hk := h e he
  rcases recOf_eq_some hre with ⟨h1, rfl⟩ | ⟨h1, rfl⟩ | ⟨h1, rfl⟩ | ⟨h1, rfl⟩ <;>
      rw [h1] at hk <;>
    first
    | rfl
    | exact absurd hk (by decide)

theorem recs_nil_of_kinds {tr : List Ev}
    (h : ∀ e ∈ tr, e.kind ∈ ([.call] : List EvKind)) : recs tr = [] := by
  unfold recs
  rw [List.filterMap_eq_nil_iff]
  intro e he
  have hk := h e he
  rcases hre : recOf e with _ | r
  · rfl
  · rcases recOf_eq_some hre with ⟨h1, rfl⟩ | ⟨h1, rfl⟩ | ⟨h1, rfl⟩ | ⟨h1, rfl⟩ <;>
      rw [h1] at hk <;> exact absurd hk (by decide)

/-! The inheritance-manager stack. -/

theorem applyStack_append (a b : List Ev) (st : List PushedE) :
    applyStack (a ++ b) st = applyStack b (applyStack a st) := by
  induction a generalizing st with
  | nil => rfl
  | cons x xs ih =>
    simp only [List.cons_append, applyStack]
    exact ih _

theorem applyStack_id_of {tr : List Ev}
    (h : ∀ e ∈ tr, e.kind ≠ EvKind.push ∧ e.kind ≠ EvKind.pop)
    (st : List PushedE) : applyStack tr st = st := by
  induction tr generalizing st with
  | nil => rfl
  | cons x xs ih =>
    obtain ⟨h1, h2⟩ := h x (by simp)
    have hstep : applyStack (x :: xs) st = applyStack xs st := by
      cases x <;> first
        | rfl
        | exact absurd rfl h1
        | exact absurd rfl h2
    rw [hstep]
    exact ih (fun e he => h e (by simp [he])) st

/-- Success inversion for `suCountGet`: the backing data was fetched as
returned, and the trace is SDK-call events only. -/
theorem suCountGet_ok {nameNum nameGet : String} {d : Except Unit (List α)}
    {l : List α} {t : List Ev}
    (h : suCountGet nameNum nameGet d = (.ok l, t)) :
    d = .ok l ∧ ∀ e ∈ t, e.kind = EvKind.call := by
  unfold SkpXml.suCountGet at h
  obtain ⟨n, t1, t2, h1, h2, rfl⟩ := bind_eq_ok h
  obtain ⟨hd, rfl⟩ := suCall_eq_ok h1
  rcases d with e | dl
  · simp [Except.map] at hd
  · simp only [Except.map] at hd
    injection hd with hn
    subst hn
    split at h2
    · obtain ⟨hget, rfl⟩ := suCall_eq_ok h2
      injection hget with hget2
      subst hget2
      constructor
      · rfl
      · intro e he
        simp at he
        rcases he with rfl | rfl <;> rfl
    · obtain ⟨rfl, rfl⟩ := mpure_eq h2
      have : dl = [] := by
        rename_i hn0
        simpa using List.length_eq_zero.mp (by omega)
      rw [this]
      constructor
      · rfl
      · intro e he
        simp at he
        rw [he]
        rfl

theorem recs_cons_none {e : Ev} {tr : List Ev} (h : recOf e = none) :
    recs (e :: tr) = recs tr := by
  simp [recs, List.filterMap_cons, h]

theorem recs_cons_some {e : Ev} {tr : List Ev} {r : Rec}
    (h : recOf e = some r) : recs (e :: tr) = r :: recs tr := by
  simp [recs, List.filterMap_cons, h]

theorem kinds_no_stack {ks : List EvKind} (hp : EvKind.push ∉ ks)
    (ho : EvKind.pop ∉ ks) {e : Ev} (he : e.kind ∈ ks) :
    e.kind ≠ EvKind.push ∧ e.kind ≠ EvKind.pop := by
  constructor
  · intro hk
    rw [hk] at he
    exact hp he
  · intro hk
    rw [hk] at he
    exact ho he

/-- The face loop of `WriteEntities` balances its pushes and pops. -/
theorem facesLoop_neutral (l : List (Option Face)) :
    ∀ (u : Unit) (t : List Ev),
      mFor l (fun f => do
        emit (Ev.push (PushedE.face f))
        writeFace f
        emit Ev.pop) = (.ok u, t) →
      ∀ st, applyStack t st = st := by
  induction l with
  | nil =>
    intro u t h st
    obtain ⟨rfl, rfl⟩ := mpure_eq h
    rfl
  | cons x xs ih =>
    intro u t h st
    obtain ⟨tx, trest, hx, hrest, rfl⟩ := mFor_eq_ok rfl h
    obtain ⟨⟨⟩, tp, _, hp, hxA, rfl⟩ := bind_eq_ok hx
    obtain rfl := emit_eq hp
    obtain ⟨⟨⟩, tw, _, hw, hxB, rfl⟩ := bind_eq_ok hxA
    obtain rfl := emit_eq hxB
    rw [applyStack_append]
    have hblock : applyStack ([Ev.push (PushedE.face x)] ++ (tw ++ [Ev.pop]))
        st = st := by
      rw [applyStack_append, applyStack_append]
      have hevW := writeFace_evOk x
      rw [hw] at hevW
      have hwid : applyStack tw (PushedE.face x :: st) =
          PushedE.face x :: st :=
        applyStack_id_of
          (fun e he => kinds_no_stack (by decide) (by decide)
            ((hevW e he).1)) _
      simp [applyStack, hwid]
    rw [hblock]
    exact ih ⟨⟩ trest hrest st

/-- Success inversion for the faces part: its pushes and pops balance. -/
theorem facesPart_neutral {opts : Options}
    {fs : Except Unit (List (Option Face))} {u : Unit} {tr : List Ev}
    (h : facesPart opts fs = (.ok u, tr)) :
    ∀ st, applyStack tr st = st := by
  unfold SkpXml.facesPart at h
  split at h
  · obtain ⟨l, t1, t2, h1, h2, rfl⟩ := bind_eq_ok h
    obtain ⟨-, hk1⟩ := suCountGet_ok h1
    intro st
    rw [applyStack_append]
    rw [applyStack_id_of
      (fun e he => by rw [hk1 e he]; exact ⟨by decide, by decide⟩) st]
    exact facesLoop_neutral l ⟨⟩ t2 h2 st
  · obtain ⟨rfl, rfl⟩ := mpure_eq h
    intro st
    rfl

mutual
/-- Success inversion for `WriteEntities`: the records appear in the
claimed order and the inheritance-stack effect is the identity. -/
theorem writeEntities_ok (opts : Options) (ents : Entities) (u : Unit)
    (tr : List Ev) (h : writeEntities opts ents = (.ok u, tr)) :
    Ordered true (recs tr) ∧ ∀ st, applyStack tr st = st := by
  rcases ents with ⟨is, gs, fs, es⟩
  unfold SkpXml.writeEntities at h
  obtain ⟨⟨⟩, tI, _, h1, hA, rfl⟩ := bind_eq_ok h
  obtain ⟨⟨⟩, tG, tF, h2, h3, rfl⟩ := bind_eq_ok hA
  obtain ⟨hord, hneu⟩ := groupsPart_ok opts gs ⟨⟩ tG h2
  have hevI := instancesPart_evOk is
  rw [h1] at hevI
  have hevF := facesPart_evOk opts fs
  rw [h3] at hevF
  constructor
  · rw [recs_append, recs_append, ← List.append_assoc]
    exact Ordered.ents _ _ _
      (recs_all_instance fun e he => (hevI e he).1)
      hord
      (recs_all_face fun e he => (hevF e he).1)
  · intro st
    rw [applyStack_append, applyStack_append]
    rw [applyStack_id_of
      (fun e he => kinds_no_stack (by decide) (by decide) ((hevI e he).1)) st]
    rw [hneu st]
    exact facesPart_neutral h3 st

/-- Success inversion for the groups part of `WriteEntities`. -/
theorem groupsPart_ok (opts : Options) (gs : Except Unit (List Group))
    (u : Unit) (tr : List Ev) (h : groupsPart opts gs = (.ok u, tr)) :
    Ordered false (recs tr) ∧ ∀ st, applyStack tr st = st := by
  rcases gs with e | l
  · unfold SkpXml.groupsPart at h
    injection h with h1 h2
    exact absurd h1 (by simp)
  · unfold SkpXml.groupsPart at h
    obtain ⟨n, t1, _, h1, hA, rfl⟩ := bind_eq_ok h
    obtain ⟨-, rfl⟩ := suCall_eq_ok h1
    split at hA
    · obtain ⟨lg, t2, t3, h2, h3, rfl⟩ := bind_eq_ok hA
      obtain ⟨-, rfl⟩ := suCall_eq_ok h2
      obtain ⟨hord, hneu⟩ := writeGroupList_ok opts l ⟨⟩ t3 h3
      exact ⟨hord, fun st => hneu st⟩
    · obtain ⟨rfl, rfl⟩ := mpure_eq hA
      exact ⟨Ordered.gnil, fun st => rfl⟩

/-- Success inversion for the group loop of `WriteEntities`. -/
theorem writeGroupList_ok (opts : Options) (l : List Group) (u : Unit)
    (tr : List Ev) (h : writeGroupList opts l = (.ok u, tr)) :
    Ordered false (recs tr) ∧ ∀ st, applyStack tr st = st := by
  cases l with
  | nil =>
    unfold SkpXml.writeGroupList at h
    obtain ⟨rfl, rfl⟩ := mpure_eq h
    exact ⟨Ordered.gnil, fun st => rfl⟩
  | cons g rest =>
    unfold SkpXml.writeGroupList at h
    obtain ⟨⟨⟩, tg, trest, hg, hrest, rfl⟩ := bind_eq_ok h
    obtain ⟨⟨inner, hrecs, hOrd⟩, hneuG⟩ := writeGroup_ok opts g ⟨⟩ tg hg
    obtain ⟨hordR, hneuR⟩ := writeGroupList_ok opts rest ⟨⟩ trest hrest
    constructor
    · rw [recs_append, hrecs]
      rw [show (Rec.startGroup :: (inner ++ [Rec.transformRec])) ++ recs trest
          = Rec.startGroup :: (inner ++ Rec.transformRec :: recs trest) from
        by simp]
      exact Ordered.gcons inner (recs trest) hOrd hordR
    · intro st
      rw [applyStack_append, hneuG st]
      exact hneuR st

/-- Success inversion for one group iteration of `WriteEntities`: its
records are a group opening, the recursively ordered nested records, and
the transformation, and its stack effect is the identity. -/
theorem writeGroup_ok (opts : Options) (g : Group) (u : Unit)
    (tr : List Ev) (h : writeGroup opts g = (.ok u, tr)) :
    (∃ inner, recs tr = Rec.startGroup :: (inner ++ [Rec.transformRec]) ∧
      Ordered true inner) ∧ ∀ st, applyStack tr st = st := by
  rcases g with ⟨ge, gt⟩
  cases ge with
  | error e =>
    unfold SkpXml.writeGroup at h
    injection h with h1 h2
    exact absurd h1 (by simp)
  | ok ents =>
    unfold SkpXml.writeGroup at h
    obtain ⟨eg, t1, _, h1, hA, rfl⟩ := bind_eq_ok h
    obtain ⟨-, rfl⟩ := suCall_eq_ok h1
    obtain ⟨⟨⟩, tp, _, hp, hB, rfl⟩ := bind_eq_ok hA
    obtain rfl := emit_eq hp
    obtain ⟨⟨⟩, ts, _, hs, hC, rfl⟩ := bind_eq_ok hB
    obtain rfl := emit_eq hs
    obtain ⟨⟨⟩, tE, _, hE, hD, rfl⟩ := bind_eq_ok hC
    obtain ⟨tv, t2, _, h2, hF, rfl⟩ := bind_eq_ok hD
    obtain ⟨-, rfl⟩ := suCall_eq_ok h2
    obtain ⟨⟨⟩, tt, _, ht, hG, rfl⟩ := bind_eq_ok hF
    obtain rfl := emit_eq ht
    obtain ⟨⟨⟩, tpp, _, hpp, hH, rfl⟩ := bind_eq_ok hG
    obtain rfl := emit_eq hpp
    obtain rfl := emit_eq hH
    obtain ⟨hOrd, hneuE⟩ := writeEntities_ok opts ents ⟨⟩ tE hE
    constructor
    · refine ⟨recs tE, ?_, hOrd⟩
      show Rec.startGroup :: recs (tE ++ [Ev.call "SUGroupGetTransform" true,
        Ev.writeTransformation tv, Ev.popParent, Ev.pop]) =
        Rec.startGroup :: (recs tE ++ [Rec.transformRec])
      rw [recs_append]
      rfl
    · intro st
      show applyStack (tE ++ [Ev.call "SUGroupGetTransform" true,
        Ev.writeTransformation tv, Ev.popParent, Ev.pop])
        (PushedE.group (Group.mk (Except.ok ents) gt) :: st) = st
      rw [applyStack_append, hneuE]
      rfl
end

/-! With face export disabled, the traversal emits no face records. -/

mutual
theorem writeEntities_noFace (opts : Options) (ents : Entities)
    (hf : opts.exportFaces = false) :
    EvP (fun e => e.kind ≠ EvKind.writeFaceInfo) (writeEntities opts ents) := by
  rcases ents with ⟨is, gs, fs, es⟩
  unfold SkpXml.writeEntities
  refine EvP.bind ((instancesPart_evOk is).weaken fun e hek hk => ?_)
    fun _ => ?_
  · have h1 := hek.1
    rw [hk] at h1
    exact absurd h1 (by decide)
  refine EvP.bind (groupsPart_noFace opts gs hf) fun _ => ?_
  unfold SkpXml.facesPart
  rw [if_neg (by simp [hf])]
  exact EvP.pure _

theorem groupsPart_noFace (opts : Options) (gs : Except Unit (List Group))
    (hf : opts.exportFaces = false) :
    EvP (fun e => e.kind ≠ EvKind.writeFaceInfo) (groupsPart opts gs) := by
  cases gs with
  | error e =>
    unfold SkpXml.groupsPart
    intro x hx
    simp at hx
    rw [hx]
    decide
  | ok l =>
    unfold SkpXml.groupsPart
    refine EvP.bind (EvP.suCall _ (by decide)) fun _ => ?_
    refine EvP.branch ?_ (EvP.pure _)
    refine EvP.bind (EvP.suCall _ (by decide)) fun _ => ?_
    exact writeGroupList_noFace opts l hf

theorem writeGroupList_noFace (opts : Options) (l : List Group)
    (hf : opts.exportFaces = false) :
    EvP (fun e => e.kind ≠ EvKind.writeFaceInfo) (writeGroupList opts l) := by
  cases l with
  | nil =>
    unfold SkpXml.writeGroupList
    exact EvP.pure _
  | cons g rest =>
    unfold SkpXml.writeGroupList
    exact EvP.bind (writeGroup_noFace opts g hf) fun _ =>
      writeGroupList_noFace opts rest hf

theorem writeGroup_noFace (opts : Options) (g : Group)
    (hf : opts.exportFaces = false) :
    EvP (fun e => e.kind ≠ EvKind.writeFaceInfo) (writeGroup opts g) := by
  rcases g with ⟨ge, gt⟩
  cases ge with
  | error e =>
    unfold SkpXml.writeGroup
    intro x hx
    simp at hx
    rw [hx]
    decide
  | ok ents =>
    unfold SkpXml.writeGroup
    refine EvP.bind (EvP.suCall _ (by decide)) fun _ => ?_
    refine EvP.bind (EvP.emit (by simp [Ev.kind])) fun _ => ?_
    refine EvP.bind (EvP.emit (by decide)) fun _ => ?_
    refine EvP.bind (writeEntities_noFace opts ents hf) fun _ => ?_
    refine EvP.bind (EvP.suCall _ (by decide)) fun t => ?_
    refine EvP.bind (EvP.emit (by simp [Ev.kind])) fun _ => ?_
    refine EvP.bind (EvP.emit (by decide)) fun _ => ?_
    exact EvP.emit (by decide)
end

/-- Case analysis shared by the whole-trace facts: a predicate holding on
every `convertMain` event and on each fixed initialization, close and
release event holds on every event of every `Convert` run. -/
theorem convert_all_events (env : Env) (opts : Options) (p : Ev → Prop)
    (hmain : ∀ model e, e ∈ (convertMain env opts model).2 → p e)
    (hinit : p Ev.initSDK)
    (hc1 : p (Ev.call "SUModelCreateFromFile" true))
    (hc2 : p (Ev.call "SUTextureWriterCreate" true))
    (hopenE : ∀ b, p (Ev.openFile b))
    (hcl : p (Ev.close true))
    (hrtw : p Ev.releaseTextureWriter)
    (hrm : p Ev.releaseModel)
    (hterm : p Ev.terminate) :
    ∀ e ∈ (convert env opts).2, p e := by
  have hrel : ∀ (a b : Bool), ∀ e ∈ releaseModelObjects a b, p e := by
    intro a b e he
    unfold releaseModelObjects at he
    rcases List.mem_append.mp he with h | h
    · rcases List.mem_append.mp h with h2 | h2
      · split at h2
        · simp at h2
          rw [h2]
          exact hrtw
        · simp at h2
      · split at h2
        · simp at h2
          rw [h2]
          exact hrm
        · simp at h2
    · simp at h
      rw [h]
      exact hterm
  rcases hcm : env.createModel with e0 | model
  · cases e0
    rw [convert_of_body_error (convertBody_createFail env opts hcm)]
    intro e he
    simp only [List.mem_append] at he
    rcases he with (he | he) | he
    · simp at he
      rcases he with rfl | rfl
      · exact hinit
      · exact hc1
    · simp at he
      rw [he]
      exact hcl
    · exact hrel _ _ e he
  · rcases hcw : env.createWriter with e0 | w
    · cases e0
      rw [convert_of_body_error (convertBody_writerFail env opts model hcm hcw)]
      intro e he
      simp only [List.mem_append] at he
      rcases he with (he | he) | he
      · simp at he
        rcases he with rfl | rfl | rfl
        · exact hinit
        · exact hc1
        · exact hc2
      · simp at he
        rw [he]
        exact hcl
      · exact hrel _ _ e he
    · cases w
      rcases hopen : env.openOk with _ | _
      · rw [show convert env opts =
          (false, [Ev.initSDK, Ev.call "SUModelCreateFromFile" true,
            Ev.call "SUTextureWriterCreate" true, Ev.openFile false] ++
            releaseModelObjects true true) from by
          simp [SkpXml.convert, convertBody_openFail env opts model hcm hcw
            hopen]]
        intro e he
        rcases List.mem_append.mp he with he | he
        · simp at he
          rcases he with rfl | rfl | rfl | rfl
          · exact hinit
          · exact hc1
          · exact hc2
          · exact hopenE false
        · exact hrel _ _ e he
      · have hb := convertBody_open env opts model hcm hcw hopen
        rcases hm : convertMain env opts model with ⟨r, mtr⟩
        rw [hm] at hb
        have hmain2 : ∀ e ∈ mtr, p e := by
          intro e he
          exact hmain model e (by rw [hm]; exact he)
        have hpre : ∀ e ∈ [Ev.initSDK, Ev.call "SUModelCreateFromFile" true,
            Ev.call "SUTextureWriterCreate" true, Ev.openFile true], p e := by
          intro e he
          simp at he
          rcases he with rfl | rfl | rfl | rfl
          · exact hinit
          · exact hc1
          · exact hc2
          · exact hopenE true
        rcases r with e0 | r
        · cases e0
          rw [convert_of_body_error hb]
          intro e he
          simp only [List.mem_append] at he
          rcases he with ((he | he) | he) | he
          · exact hpre e he
          · exact hmain2 e he
          · simp at he
            rw [he]
            exact hcl
          · exact hrel _ _ e he
        · rcases r with _ | _
          · rw [show convert env opts = (false,
              [Ev.initSDK, Ev.call "SUModelCreateFromFile" true,
               Ev.call "SUTextureWriterCreate" true, Ev.openFile true] ++ mtr)
              from by simp [SkpXml.convert, hb]]
            intro e he
            rcases List.mem_append.mp he with he | he
            · exact hpre e he
            · exact hmain2 e he
          · rw [show convert env opts = (true,
              ([Ev.initSDK, Ev.call "SUModelCreateFromFile" true,
                Ev.call "SUTextureWriterCreate" true, Ev.openFile true] ++ mtr)
              ++ releaseModelObjects (writerValid env) (modelValid env))
              from by simp [SkpXml.convert, hb]]
            intro e he
            rcases List.mem_append.mp he with he | he
            · rcases List.mem_append.mp he with he | he
              · exact hpre e he
              · exact hmain2 e he
            · exact hrel _ _ e he

/-- Shared helper: every event of every `Convert` run is an acceptable SDK
call and is never an edge record. -/
theorem convert_events (env : Env) (opts : Options) :
    ∀ e ∈ (convert env opts).2,
      callOk e ∧ e.kind ≠ EvKind.writeEdgeInfo := by
  refine convert_all_events env opts _ ?_ ?_ ?_ ?_ ?_ ?_ ?_ ?_ ?_
  · intro model e he
    have h := convertMain_evOk env opts model e he
    refine ⟨h.2, fun hk => ?_⟩
    have h1 := h.1
    rw [hk] at h1
    exact absurd h1 (by decide)
  · exact ⟨callOk_of_kind_ne (by decide), by decide⟩
  · exact ⟨fun n w2 hw => by cases hw; exact Or.inl rfl, by decide⟩
  · exact ⟨fun n w2 hw => by cases hw; exact Or.inl rfl, by decide⟩
  · exact fun b => ⟨callOk_of_kind_ne (by simp [Ev.kind]), by simp [Ev.kind]⟩
  · exact ⟨callOk_of_kind_ne (by decide), by decide⟩
  · exact ⟨callOk_of_kind_ne (by decide), by decide⟩
  · exact ⟨callOk_of_kind_ne (by decide), by decide⟩
  · exact ⟨callOk_of_kind_ne (by decide), by decide⟩

/-- With face export disabled, `WriteGeometry` emits no face records. -/
theorem writeGeometry_noFace (opts : Options) (model : Model)
    (hf : opts.exportFaces = false) :
    EvP (fun e => e.kind ≠ EvKind.writeFaceInfo) (writeGeometry opts model) := by
  unfold SkpXml.writeGeometry
  refine EvP.branch ?_ (EvP.pure _)
  refine EvP.bind (EvP.suCall _ (by decide)) fun ents => ?_
  refine EvP.bind (EvP.emit (by decide)) fun _ => ?_
  refine EvP.bind (writeEntities_noFace opts ents hf) fun _ => ?_
  exact EvP.emit (by decide)

/-- Shared helper: with face export disabled, no `Convert` run emits a face
record. -/
theorem convert_noFace (env : Env) (opts : Options)
    (hf : opts.exportFaces = false) :
    ∀ e ∈ (convert env opts).2, e.kind ≠ EvKind.writeFaceInfo := by
  refine convert_all_events env opts _ ?_ (by decide) (by decide) (by decide)
    (fun b => by simp [Ev.kind]) (by decide) (by decide) (by decide) (by decide)
  intro model e he
  unfold SkpXml.convertMain at he
  revert e he
  refine EvP.bind ((handleProgress_evOk _ _ _ _).weaken fun e hek hk => ?_)
    fun _ => ?_
  · have h1 := hek.1
    rw [hk] at h1
    exact absurd h1 (by decide)
  refine EvP.bind ((writeTextureFiles_evOk _ _).weaken fun e hek hk => ?_)
    fun _ => ?_
  · have h1 := hek.1
    rw [hk] at h1
    exact absurd h1 (by decide)
  refine EvP.bind (EvP.suCall _ (by decide)) fun v => ?_
  refine EvP.bind (EvP.emit (by simp [Ev.kind])) fun _ => ?_
  refine EvP.bind ((handleProgress_evOk _ _ _ _).weaken fun e hek hk => ?_)
    fun _ => ?_
  · have h1 := hek.1
    rw [hk] at h1
    exact absurd h1 (by decide)
  refine EvP.bind ((writeLayers_evOk _ _).weaken fun e hek hk => ?_)
    fun _ => ?_
  · have h1 := hek.1
    rw [hk] at h1
    exact absurd h1 (by decide)
  refine EvP.bind ((handleProgress_evOk _ _ _ _).weaken fun e hek hk => ?_)
    fun _ => ?_
  · have h1 := hek.1
    rw [hk] at h1
    exact absurd h1 (by decide)
  refine EvP.bind ((writeMaterials_evOk _ _).weaken fun e hek hk => ?_)
    fun _ => ?_
  · have h1 := hek.1
    rw [hk] at h1
    exact absurd h1 (by decide)
  refine EvP.bind ((handleProgress_evOk _ _ _ _).weaken fun e hek hk => ?_)
    fun _ => ?_
  · have h1 := hek.1
    rw [hk] at h1
    exact absurd h1 (by decide)
  refine EvP.bind (writeGeometry_noFace opts model hf) fun _ => ?_
  refine EvP.bind ((isCancelled_evOk _ _).weaken fun e hek hk => ?_)
    fun c => ?_
  · have h1 := hek.1
    rw [hk] at h1
    exact absurd h1 (by decide)
  refine EvP.bind (EvP.emit (by simp [Ev.kind])) fun _ => ?_
  refine EvP.bind ((handleProgress_evOk _ _ _ _).weaken fun e hek hk => ?_)
    fun _ => ?_
  · have h1 := hek.1
    rw [hk] at h1
    exact absurd h1 (by decide)
  exact EvP.pure _

/-! Success structure of the parts of `WriteEntities`, and membership
facts about the section markers. -/

theorem writeEntities_parts {opts : Options}
    {is : Except Unit (List CompInstance)} {gs : Except Unit (List Group)}
    {fs : Except Unit (List (Option Face))} {es : Except Unit (List Edge)}
    {u : Unit} {tr : List Ev}
    (h : writeEntities opts (.mk is gs fs es) = (.ok u, tr)) :
    ∃ tI tG tF, instancesPart is = (.ok (), tI) ∧
      groupsPart opts gs = (.ok (), tG) ∧ facesPart opts fs = (.ok u, tF) ∧
      tr = tI ++ (tG ++ tF) := by
  unfold SkpXml.writeEntities at h
  obtain ⟨⟨⟩, tI, _, h1, hA, rfl⟩ := bind_eq_ok h
  obtain ⟨⟨⟩, tG, tF, h2, h3, rfl⟩ := bind_eq_ok hA
  exact ⟨tI, tG, tF, h1, h2, h3, rfl⟩

theorem writeFace_mem {face : Face} {u : Unit} {t : List Ev}
    (h : writeFace (some face) = (.ok u, t)) :
    ∃ i, Ev.writeFaceInfo i ∈ t := by
  unfold SkpXml.writeFace at h
  obtain ⟨outer, t1, _, h1, hA, rfl⟩ := bind_eq_ok h
  obtain ⟨vs, t2, _, h2, hB, rfl⟩ := bind_eq_ok hA
  obtain ⟨⟨⟩, t3, _, h3, hC, rfl⟩ := bind_eq_ok hB
  obtain rfl := emit_eq h3
  obtain ⟨⟨⟩, t4, _, h4, hD, rfl⟩ := bind_eq_ok hC
  obtain rfl := emit_eq h4
  exact ⟨{ hasSingleLoop := true, vertices := vs }, by simp⟩

theorem facesPart_mem {opts : Options} {fs : Except Unit (List (Option Face))}
    {u : Unit} {t : List Ev} {l : List (Option Face)} {face : Face}
    (hf : opts.exportFaces = true) (h : facesPart opts fs = (.ok u, t))
    (hfs : fs = Except.ok l) (hmem : some face ∈ l) :
    ∃ i, Ev.writeFaceInfo i ∈ t := by
  unfold SkpXml.facesPart at h
  rw [if_pos hf] at h
  obtain ⟨lv, t1, t2, h1, h2, rfl⟩ := bind_eq_ok h
  obtain ⟨hfl, -⟩ := suCountGet_ok h1
  rw [hfs] at hfl
  injection hfl with hfl2
  subst hfl2
  obtain ⟨t3, h3, hsub⟩ := mFor_ok_mem h2 hmem
  obtain ⟨⟨⟩, tp, _, hp, hA, rfl⟩ := bind_eq_ok h3
  obtain rfl := emit_eq hp
  obtain ⟨⟨⟩, tw, _, hw, hB, rfl⟩ := bind_eq_ok hA
  obtain ⟨i, hi⟩ := writeFace_mem hw
  refine ⟨i, List.mem_append.mpr (Or.inr (hsub _ ?_))⟩
  simp [hi]

theorem writeGeometry_faces {opts : Options} {model : Model} {u : Unit}
    {t : List Ev} {is gs fs es} {l : List (Option Face)} {face : Face}
    (hf : opts.exportFaces = true) (h : writeGeometry opts model = (.ok u, t))
    (hents : model.entities = .ok (Entities.mk is gs fs es))
    (hfs : fs = Except.ok l) (hmem : some face ∈ l) :
    ∃ i, Ev.writeFaceInfo i ∈ t := by
  unfold SkpXml.writeGeometry at h
  rw [if_pos (by simp [hf])] at h
  obtain ⟨ents, t1, _, h1, hA, rfl⟩ := bind_eq_ok h
  obtain ⟨hent, rfl⟩ := suCall_eq_ok h1
  rw [hents] at hent
  injection hent with hent2
  subst hent2
  obtain ⟨⟨⟩, t2, _, h2, hB, rfl⟩ := bind_eq_ok hA
  obtain rfl := emit_eq h2
  obtain ⟨⟨⟩, t3, _, h3, hC, rfl⟩ := bind_eq_ok hB
  obtain ⟨tI, tG, tF, hI, hG, hFc, rfl⟩ := writeEntities_parts h3
  obtain ⟨i, hi⟩ := facesPart_mem hf hFc hfs hmem
  exact ⟨i, by simp [hi]⟩

theorem writeLayers_off {opts : Options} {model : Model}
    (h : opts.exportLayers = false) :
    writeLayers opts model = (.ok (), []) := by
  unfold SkpXml.writeLayers
  rw [if_neg (by simp [h])]
  rfl

theorem writeLayers_start_mem {opts : Options} {model : Model}
    (h : opts.exportLayers = true) :
    Ev.startLayers ∈ (writeLayers opts model).2 := by
  unfold SkpXml.writeLayers
  rw [if_pos h]
  exact mem_bind_left (mem_emit _)

theorem writeLayers_start_mem' (opts : Options) (model : Model)
    (h : opts.exportLayers = true) :
    Ev.startLayers ∈ (writeLayers opts model).2 :=
  writeLayers_start_mem h

theorem writeMaterials_off {opts : Options} {model : Model}
    (h : opts.exportMaterials = false) :
    writeMaterials opts model = (.ok (), []) := by
  unfold SkpXml.writeMaterials
  rw [if_neg (by simp [h])]
  rfl

theorem writeMaterials_start_mem_byLayer {opts : Options} {model : Model}
    {ll : List (Option Layer)} (h1 : opts.exportMaterials = true)
    (h2 : opts.exportMaterialsByLayer = true) (h3 : model.layers = .ok ll)
    (h4 : ll ≠ []) :
    Ev.startMaterials ∈ (writeMaterials opts model).2 := by
  unfold SkpXml.writeMaterials
  rw [if_pos h1, if_pos h2, h3]
  refine mem_bind_right' ll.length rfl ?_
  rw [if_pos (List.length_pos.mpr h4)]
  refine mem_bind_right rfl ?_
  exact mem_bind_left (mem_emit _)

theorem writeMaterials_start_mem_flat {opts : Options} {model : Model}
    {ml : List (Option Material)} (h1 : opts.exportMaterials = true)
    (h2 : opts.exportMaterialsByLayer = false)
    (h3 : model.materials = .ok ml) (h4 : ml ≠ []) :
    Ev.startMaterials ∈ (writeMaterials opts model).2 := by
  unfold SkpXml.writeMaterials
  rw [if_pos h1, if_neg (by simp [h2]), h3]
  refine mem_bind_right' ml.length rfl ?_
  rw [if_pos (List.length_pos.mpr h4)]
  exact mem_bind_left (mem_emit _)

theorem writeMaterials_empty_byLayer {opts : Options} {model : Model}
    (h1 : opts.exportMaterials = true) (h2 : opts.exportMaterialsByLayer = true)
    (h3 : model.layers = .ok []) :
    writeMaterials opts model = (.ok (), [Ev.call "SUModelGetNumLayers" true]) := by
  simp [SkpXml.writeMaterials, h1, h2, h3, bind_def, bind_ok_pair, suCall,
    M.pure, Except.map]

theorem writeMaterials_empty_flat {opts : Options} {model : Model}
    (h1 : opts.exportMaterials = true)
    (h2 : opts.exportMaterialsByLayer = false)
    (h3 : model.materials = .ok []) :
    writeMaterials opts model =
      (.ok (), [Ev.call "SUModelGetNumMaterials" true]) := by
  simp [SkpXml.writeMaterials, h1, h2, h3, bind_def, bind_ok_pair, suCall,
    M.pure, Except.map]

/-! Success structure of `WriteFace`. -/

theorem except_bind_ok (a : α) (f : α → Except Unit β) :
    (Except.ok a : Except Unit α) >>= f = f a := rfl

theorem mMap_pos (vl : List Vertex) :
    ∀ (vs : List FaceVertex) (t : List Ev),
      mMap vl (fun v => do
        let p ← suCall "SUVertexGetPosition" v.position
        M.pure ({ vertex := p } : FaceVertex)) = (.ok vs, t) →
      ∃ ps, exceptMap Vertex.position vl = Except.ok ps ∧
        vs = ps.map (fun p => ({ vertex := p } : FaceVertex)) := by
  induction vl with
  | nil =>
    intro vs t h
    unfold SkpXml.mMap at h
    obtain ⟨rfl, rfl⟩ := mpure_eq h
    exact ⟨[], rfl, by simp⟩
  | cons v rest ih =>
    intro vs t h
    unfold SkpXml.mMap at h
    obtain ⟨y, t1, _, h1, hA, rfl⟩ := bind_eq_ok h
    obtain ⟨p, tp, _, hp, hB, rfl⟩ := bind_eq_ok h1
    obtain ⟨hpos, rfl⟩ := suCall_eq_ok hp
    obtain ⟨rfl, rfl⟩ := mpure_eq hB
    obtain ⟨ys, t2, _, h2, hC, rfl⟩ := bind_eq_ok hA
    obtain ⟨rfl, rfl⟩ := mpure_eq hC
    obtain ⟨ps, hps, rfl⟩ := ih ys t2 h2
    exact ⟨p :: ps, by simp [exceptMap, hpos, hps, except_bind_ok], by simp⟩

theorem loopVertexInfos_ok {lp : Loop} {vs : List FaceVertex} {t : List Ev}
    (h : loopVertexInfos lp = (.ok vs, t)) :
    loopInfo lp = .ok { hasSingleLoop := true, vertices := vs } := by
  unfold SkpXml.loopVertexInfos at h
  obtain ⟨vl, t1, t2, h1, h2, rfl⟩ := bind_eq_ok h
  obtain ⟨hv, -⟩ := suCountGet_ok h1
  obtain ⟨ps, hps, rfl⟩ := mMap_pos vl vs t2 h2
  unfold SkpXml.loopInfo
  simp [hv, hps, except_bind_ok]

theorem innersLoop_ok (inners : List Loop) :
    ∀ (u : Unit) (t : List Ev),
      mFor inners (fun lp => do
        let vsi ← loopVertexInfos lp
        emit .statAddFace
        emit (.writeFaceInfo { hasSingleLoop := true, vertices := vsi })) =
        (.ok u, t) →
      ∃ rs, exceptMap loopInfo inners = Except.ok rs ∧ faceInfos t = rs ∧
        countKind .statAddFace t = inners.length := by
  induction inners with
  | nil =>
    intro u t h
    obtain ⟨rfl, rfl⟩ := mpure_eq h
    exact ⟨[], rfl, rfl, rfl⟩
  | cons lp rest ih =>
    intro u t h
    obtain ⟨t1, t2, h1, h2, rfl⟩ := mFor_eq_ok rfl h
    obtain ⟨vsi, tv, _, hv, hA, rfl⟩ := bind_eq_ok h1
    obtain ⟨⟨⟩, ts, _, hs, hB, rfl⟩ := bind_eq_ok hA
    obtain rfl := emit_eq hs
    obtain rfl := emit_eq hB
    have hli := loopVertexInfos_ok hv
    have hvk := loopVertexInfos_evOk lp
    rw [hv] at hvk
    obtain ⟨rs, hrs, hfi, hcnt⟩ := ih ⟨⟩ t2 h2
    refine ⟨{ hasSingleLoop := true, vertices := vsi } :: rs, ?_, ?_, ?_⟩
    · simp [exceptMap, hli, hrs, except_bind_ok]
    · rw [faceInfos_append, hfi, faceInfos_append]
      rw [faceInfos_nil (fun e he => by
        have h1k := (hvk e he).1
        intro hk
        rw [hk] at h1k
        exact absurd h1k (by decide))]
      rfl
    · rw [countKind_append, countKind_append, hcnt]
      rw [countKind_eq_zero' EvKind.statAddFace (fun e he => by
        have h1k := (hvk e he).1
        intro hk
        rw [hk] at h1k
        exact absurd h1k (by decide))]
      simp [countKind, Ev.kind]
      omega

theorem writeFace_ok {face : Face} {u : Unit} {tr : List Ev}
    (h : writeFace (some face) = (.ok u, tr)) :
    ∃ outer inners r0 rs,
      face.outerLoop = .ok outer ∧
      face.innerLoops = .ok inners ∧
      loopInfo outer = .ok r0 ∧
      exceptMap loopInfo inners = Except.ok rs ∧
      faceInfos tr = r0 :: rs ∧
      countKind .statAddFace tr = 1 + inners.length := by
  unfold SkpXml.writeFace at h
  obtain ⟨outer, t1, _, h1, hA, rfl⟩ := bind_eq_ok h
  obtain ⟨ho, rfl⟩ := suCall_eq_ok h1
  obtain ⟨vs, tv, _, hv, hB, rfl⟩ := bind_eq_ok hA
  obtain ⟨⟨⟩, ts, _, hs, hC, rfl⟩ := bind_eq_ok hB
  obtain rfl := emit_eq hs
  obtain ⟨⟨⟩, tf, _, hf, hD, rfl⟩ := bind_eq_ok hC
  obtain rfl := emit_eq hf
  obtain ⟨inners, ti, t2, h2, h3, rfl⟩ := bind_eq_ok hD
  obtain ⟨hil, hik⟩ := suCountGet_ok h2
  obtain ⟨rs, hrs, hfi, hcnt⟩ := innersLoop_ok inners ⟨⟩ t2 h3
  have hli := loopVertexInfos_ok hv
  have hvk := loopVertexInfos_evOk outer
  rw [hv] at hvk
  have htv : ∀ e ∈ tv, e.kind ≠ EvKind.writeFaceInfo ∧
      e.kind ≠ EvKind.statAddFace := by
    intro e he
    have h1k := (hvk e he).1
    constructor <;> intro hk <;> rw [hk] at h1k <;>
      exact absurd h1k (by decide)
  have hti : ∀ e ∈ ti, e.kind ≠ EvKind.writeFaceInfo ∧
      e.kind ≠ EvKind.statAddFace := by
    intro e he
    rw [hik e he]
    exact ⟨by decide, by decide⟩
  refine ⟨outer, inners, _, rs, ho, hil, hli, hrs, ?_, ?_⟩
  · rw [faceInfos_append, faceInfos_append, faceInfos_append,
      faceInfos_append, faceInfos_append, hfi,
      faceInfos_nil (fun e he => (htv e he).1),
      faceInfos_nil (fun e he => (hti e he).1)]
    rfl
  · rw [countKind_append, countKind_append, countKind_append,
      countKind_append, countKind_append, hcnt,
      countKind_eq_zero (fun e he => (htv e he).2),
      countKind_eq_zero (fun e he => (hti e he).2)]
    simp [countKind, Ev.kind]

/-! Success structure of `GetEdgeInfo`. -/

theorem edgeLayerPart_ok {opts : Options} {cl : Option Layer} {edge : Edge}
    {lp : Bool × Option String} {t : List Ev}
    (h : edgeLayerPart opts cl edge = (.ok lp, t)) :
    (opts.exportLayers = false ∧ lp = (false, none)) ∨
    (opts.exportLayers = true ∧ cl = none ∧ lp = (true, none)) ∨
    (opts.exportLayers = true ∧ ∃ l0 el nm, cl = some l0 ∧
      edge.layer = .ok (some el) ∧ el.name = .ok nm ∧
      lp = (true, some nm)) := by
  unfold SkpXml.edgeLayerPart at h
  rcases hEx : opts.exportLayers with _ | _
  · rw [if_neg (by simp [hEx])] at h
    obtain ⟨rfl, rfl⟩ := mpure_eq h
    exact Or.inl ⟨rfl, rfl⟩
  · rw [if_pos hEx] at h
    cases cl with
    | none =>
      obtain ⟨rfl, rfl⟩ := mpure_eq h
      exact Or.inr (Or.inl ⟨rfl, rfl, rfl⟩)
    | some l0 =>
      obtain ⟨ol, t1, _, h1, hA, rfl⟩ := bind_eq_ok h
      obtain ⟨hol, rfl⟩ := suCall_eq_ok h1
      cases ol with
      | none =>
        unfold SkpXml.getLayerNameRef at hA
        obtain ⟨nm, t2, _, h2, hB, rfl⟩ := bind_eq_ok hA
        obtain ⟨hbad, -⟩ := suCall_eq_ok h2
        exact absurd hbad (by simp)
      | some el =>
        unfold SkpXml.getLayerNameRef at hA
        obtain ⟨nm, t2, _, h2, hB, rfl⟩ := bind_eq_ok hA
        obtain ⟨hnm, rfl⟩ := suCall_eq_ok h2
        obtain ⟨rfl, rfl⟩ := mpure_eq hB
        exact Or.inr (Or.inr ⟨rfl, l0, el, nm, rfl, hol, hnm, rfl⟩)

theorem getEdgeInfo_ok {opts : Options} {cl : Option Layer} {cc : Color}
    {edge : Edge} {info : EdgeInfo} {tr : List Ev}
    (h : getEdgeInfo opts cl cc edge = (.ok info, tr)) :
    info.hasLayer = opts.exportLayers ∧
    (opts.exportLayers = true → cl = none → info.layerName = none) ∧
    (opts.exportLayers = true → ∀ l0, cl = some l0 →
      ∃ el nm, edge.layer = .ok (some el) ∧ el.name = .ok nm ∧
        info.layerName = some nm) ∧
    (opts.exportLayers = false → info.layerName = none) ∧
    info.hasColor = opts.exportMaterials ∧
    (opts.exportMaterials = true → info.color = cc) ∧
    ∃ sv sp ev2 ep, edge.startVertex = .ok sv ∧ sv.position = .ok sp ∧
      edge.endVertex = .ok ev2 ∧ ev2.position = .ok ep ∧
      info.start = sp ∧ info.stop = ep := by
  unfold SkpXml.getEdgeInfo at h
  obtain ⟨lp, t1, _, h1, hA, rfl⟩ := bind_eq_ok h
  obtain ⟨cp, t2, _, h2, hB, rfl⟩ := bind_eq_ok hA
  obtain ⟨sv, t3, _, h3, hC, rfl⟩ := bind_eq_ok hB
  obtain ⟨hsv, rfl⟩ := suCall_eq_ok h3
  obtain ⟨sp, t4, _, h4, hD, rfl⟩ := bind_eq_ok hC
  obtain ⟨hsp, rfl⟩ := suCall_eq_ok h4
  obtain ⟨ev2, t5, _, h5, hE, rfl⟩ := bind_eq_ok hD
  obtain ⟨hev, rfl⟩ := suCall_eq_ok h5
  obtain ⟨ep, t6, _, h6, hF, rfl⟩ := bind_eq_ok hE
  obtain ⟨hep, rfl⟩ := suCall_eq_ok h6
  obtain ⟨rfl, rfl⟩ := mpure_eq hF
  have hcolor : (opts.exportMaterials = true → cp = (true, cc)) ∧
      (opts.exportMaterials = false → cp = (false, default)) := by
    unfold SkpXml.edgeColorPart at h2
    rcases hEm : opts.exportMaterials with _ | _
    · rw [if_neg (by simp [hEm])] at h2
      obtain ⟨rfl, rfl⟩ := mpure_eq h2
      exact ⟨fun hc => by simp at hc, fun _ => rfl⟩
    · rw [if_pos hEm] at h2
      obtain ⟨rfl, rfl⟩ := mpure_eq h2
      exact ⟨fun _ => rfl, fun hc => by simp at hc⟩
  rcases edgeLayerPart_ok h1 with ⟨hEx, rfl⟩ | ⟨hEx, rfl, rfl⟩ |
    ⟨hEx, l0, el, nm, rfl, hel, hnm, rfl⟩
  · refine ⟨by simp [hEx], by simp [hEx], by simp [hEx], fun _ => rfl,
      ?_, ?_, sv, sp, ev2, ep, hsv, hsp, hev, hep, rfl, rfl⟩
    · rcases hEm : opts.exportMaterials with _ | _
      · rw [(hcolor.2 hEm)]
      · rw [(hcolor.1 hEm)]
    · intro hEm
      rw [(hcolor.1 hEm)]
  · refine ⟨by simp [hEx], fun _ _ => rfl, ?_, by simp [hEx],
      ?_, ?_, sv, sp, ev2, ep, hsv, hsp, hev, hep, rfl, rfl⟩
    · intro _ l0 hcl
      simp at hcl
    · rcases hEm : opts.exportMaterials with _ | _
      · rw [(hcolor.2 hEm)]
      · rw [(hcolor.1 hEm)]
    · intro hEm
      rw [(hcolor.1 hEm)]
  · refine ⟨by simp [hEx], ?_, ?_, by simp [hEx],
      ?_, ?_, sv, sp, ev2, ep, hsv, hsp, hev, hep, rfl, rfl⟩
    · intro _ hcl
      simp at hcl
    · intro _ l1 hcl
      injection hcl with hcl2
      exact ⟨el, nm, hel, hnm, rfl⟩
    · rcases hEm : opts.exportMaterials with _ | _
      · rw [(hcolor.2 hEm)]
      · rw [(hcolor.1 hEm)]
    · intro hEm
      rw [(hcolor.1 hEm)]

theorem evOk_kind_ne {ks : List EvKind} {k : EvKind} (hk : k ∉ ks) {e : Ev}
    (he : evOk ks e) : e.kind ≠ k :=
  fun h => hk (h ▸ he.1)

/-- Shared helper: the progress, cancellation-check and close projections
of a completed conversion's trace. -/
theorem convert_true_projections {env : Env} {opts : Options} {tr : List Ev}
    (h : convert env opts = (true, tr)) :
    progressEvents tr = [(0, "Writing Texture Files..."),
      (10, "Writing Layers..."), (20, "Writing Materials..."),
      (60, "Writing Geometry..."), (100, "Export Complete")] ∧
    pulseEvents tr = [Ev.checkCancel (env.cancel 0),
      Ev.progress 0 "Writing Texture Files...",
      Ev.checkCancel (env.cancel 1), Ev.progress 10 "Writing Layers...",
      Ev.checkCancel (env.cancel 2), Ev.progress 20 "Writing Materials...",
      Ev.checkCancel (env.cancel 3), Ev.progress 60 "Writing Geometry...",
      Ev.checkCancel (env.cancel 4), Ev.checkCancel (env.cancel 5),
      Ev.progress 100 "Export Complete"] ∧
    closeFlags tr = [env.cancel 4] := by
  obtain ⟨model, mainTr, hcm, hcw, hopen, hmain, rfl⟩ := convert_true h
  obtain ⟨-, v, t1, t2, t3, t4, h1, hver, h2, h3, h4, rfl⟩ :=
    convertMain_ok hmain
  have k1 := writeTextureFiles_evOk env opts
  rw [h1] at k1
  have k2 := writeLayers_evOk opts model
  rw [h2] at k2
  have k3 := writeMaterials_evOk opts model
  rw [h3] at k3
  have k4 := writeGeometry_evOk opts model
  rw [h4] at k4
  refine ⟨?_, ?_, ?_⟩
  · simp only [progressEvents_append,
      progressEvents_nil fun e he => evOk_kind_ne (by decide) (k1 e he),
      progressEvents_nil fun e he => evOk_kind_ne (by decide) (k2 e he),
      progressEvents_nil fun e he => evOk_kind_ne (by decide) (k3 e he),
      progressEvents_nil fun e he => evOk_kind_ne (by decide) (k4 e he)]
    rfl
  · simp only [pulseEvents_append,
      pulseEvents_nil fun e he => ⟨evOk_kind_ne (by decide) (k1 e he),
        evOk_kind_ne (by decide) (k1 e he)⟩,
      pulseEvents_nil fun e he => ⟨evOk_kind_ne (by decide) (k2 e he),
        evOk_kind_ne (by decide) (k2 e he)⟩,
      pulseEvents_nil fun e he => ⟨evOk_kind_ne (by decide) (k3 e he),
        evOk_kind_ne (by decide) (k3 e he)⟩,
      pulseEvents_nil fun e he => ⟨evOk_kind_ne (by decide) (k4 e he),
        evOk_kind_ne (by decide) (k4 e he)⟩]
    rfl
  · simp only [closeFlags_append,
      closeFlags_nil fun e he => evOk_kind_ne (by decide) (k1 e he),
      closeFlags_nil fun e he => evOk_kind_ne (by decide) (k2 e he),
      closeFlags_nil fun e he => evOk_kind_ne (by decide) (k3 e he),
      closeFlags_nil fun e he => evOk_kind_ne (by decide) (k4 e he)]
    rfl

/-- Shared helper: the phase traces of a completed conversion, each
embedded in the full trace, such that every trace event is in one of them
or is one of the fixed boundary events. -/
theorem convert_true_phase_mem {env : Env} {opts : Options} {tr : List Ev}
    (h : convert env opts = (true, tr)) :
    ∃ model t1 t2 t3 t4,
      env.createModel = .ok model ∧
      writeTextureFiles env opts = (.ok (), t1) ∧
      writeLayers opts model = (.ok (), t2) ∧
      writeMaterials opts model = (.ok (), t3) ∧
      writeGeometry opts model = (.ok (), t4) ∧
      (∀ e ∈ t1, e ∈ tr) ∧ (∀ e ∈ t2, e ∈ tr) ∧ (∀ e ∈ t3, e ∈ tr) ∧
      (∀ e ∈ t4, e ∈ tr) ∧
      (∀ e ∈ tr, e ∈ t1 ∨ e ∈ t2 ∨ e ∈ t3 ∨ e ∈ t4 ∨
        e.kind ∈ ([.initSDK, .call, .openFile, .checkCancel, .progress,
          .writeHeader, .close, .releaseTextureWriter, .releaseModel,
          .terminate] : List EvKind)) := by
  obtain ⟨model, mainTr, hcm, hcw, hopen, hmain, rfl⟩ := convert_true h
  obtain ⟨-, v, t1, t2, t3, t4, h1, hver, h2, h3, h4, rfl⟩ :=
    convertMain_ok hmain
  refine ⟨model, t1, t2, t3, t4, hcm, h1, h2, h3, h4,
    ?_, ?_, ?_, ?_, ?_⟩
  · intro e he
    simp [he]
  · intro e he
    simp [he]
  · intro e he
    simp [he]
  · intro e he
    simp [he]
  · intro e he
    rcases List.mem_append.mp he with he2 | hlit
    swap
    · simp at hlit
      rcases hlit with rfl | rfl | rfl <;>
        exact Or.inr (Or.inr (Or.inr (Or.inr (by simp [Ev.kind]))))
    rcases List.mem_append.mp he2 with hpre | he3
    · simp at hpre
      rcases hpre with rfl | rfl | rfl | rfl <;>
        exact Or.inr (Or.inr (Or.inr (Or.inr (by simp [Ev.kind]))))
    rcases List.mem_append.mp he3 with he4 | hA5
    swap
    · simp at hA5
      rcases hA5 with rfl | rfl | rfl | rfl <;>
        exact Or.inr (Or.inr (Or.inr (Or.inr (by simp [Ev.kind]))))
    rcases List.mem_append.mp he4 with he5 | ht4
    swap
    · exact Or.inr (Or.inr (Or.inr (Or.inl ht4)))
    rcases List.mem_append.mp he5 with he6 | hA4
    swap
    · simp at hA4
      rcases hA4 with rfl | rfl <;>
        exact Or.inr (Or.inr (Or.inr (Or.inr (by simp [Ev.kind]))))
    rcases List.mem_append.mp he6 with he7 | ht3
    swap
    · exact Or.inr (Or.inr (Or.inl ht3))
    rcases List.mem_append.mp he7 with he8 | hA3
    swap
    · simp at hA3
      rcases hA3 with rfl | rfl <;>
        exact Or.inr (Or.inr (Or.inr (Or.inr (by simp [Ev.kind]))))
    rcases List.mem_append.mp he8 with he9 | ht2
    swap
    · exact Or.inr (Or.inl ht2)
    rcases List.mem_append.mp he9 with he10 | hA2
    swap
    · simp at hA2
      rcases hA2 with rfl | rfl | rfl | rfl <;>
        exact Or.inr (Or.inr (Or.inr (Or.inr (by simp [Ev.kind]))))
    rcases List.mem_append.mp he10 with hA1 | ht1
    · simp at hA1
      rcases hA1 with rfl | rfl <;>
        exact Or.inr (Or.inr (Or.inr (Or.inr (by simp [Ev.kind]))))
    · exact Or.inl ht1

/-! The claims. -/

/-- C1: when any wrapped SDK call raises during the `try` block of
`Convert`, the conversion catches the failure, closes the output file with
the cancelled/incomplete flag, releases the SDK objects (terminating the
SDK session exactly once), and returns false; after the failure point the
trace holds nothing but that close and release. -/
theorem spec_c1_convert_catches_failure (env : Env) (opts : Options)
    (err : Unit) (btr : List Ev)
    (h : convertBody env opts = (.error err, btr)) :
    convert env opts = (false, btr ++ [Ev.close true] ++
      releaseModelObjects (writerValid env) (modelValid env)) ∧
    countKind .terminate (convert env opts).2 = 1 :=
  ⟨convert_of_body_error h, (convert_release_once env opts).1⟩

/-- Witness for C1 at an environment whose `SUModelCreateFromFile` call
fails. -/
theorem spec_c1_witness :
    convertBody envCreateFail optsA =
      (.error (), [Ev.initSDK, Ev.call "SUModelCreateFromFile" true]) ∧
    (convert envCreateFail optsA =
      (false, [Ev.initSDK, Ev.call "SUModelCreateFromFile" true] ++
        [Ev.close true] ++
        releaseModelObjects (writerValid envCreateFail)
          (modelValid envCreateFail)) ∧
      countKind .terminate (convert envCreateFail optsA).2 = 1) :=
  ⟨rfl, spec_c1_convert_catches_failure envCreateFail optsA ()
    [Ev.initSDK, Ev.call "SUModelCreateFromFile" true] rfl⟩

/-- C2: on every exit path of `Convert` — early return, success, or
exception — the SDK session is terminated exactly once, and each of the
texture-writer and model handles is released exactly once when it is valid
and never otherwise. -/
theorem spec_c2_release_exactly_once (env : Env) (opts : Options) :
    countKind .terminate (convert env opts).2 = 1 ∧
    countKind .releaseTextureWriter (convert env opts).2 =
      (if writerValid env = true then 1 else 0) ∧
    countKind .releaseModel (convert env opts).2 =
      (if modelValid env = true then 1 else 0) :=
  convert_release_once env opts

/-- C5: on every conversion that runs to completion, the percentages
delivered to the progress callback are exactly 0, 10, 20, 60, 100 with
their phase labels, strictly increasing and all within 0 to 100. -/
theorem spec_c5_progress_monotone (env : Env) (opts : Options)
    (tr : List Ev) (h : convert env opts = (true, tr)) :
    progressEvents tr = [(0, "Writing Texture Files..."),
      (10, "Writing Layers..."), (20, "Writing Materials..."),
      (60, "Writing Geometry..."), (100, "Export Complete")] ∧
    List.Chain' (· < ·) ((progressEvents tr).map Prod.fst) ∧
    ∀ p ∈ progressEvents tr, p.1 ≤ 100 := by
  have hp := (convert_true_projections h).1
  refine ⟨hp, ?_, ?_⟩
  · rw [hp]
    norm_num [List.chain'_cons]
  · rw [hp]
    decide

/-- Witness for C5 at a fully populated environment. -/
theorem spec_c5_witness :
    convert envA optsA = (true, (convert envA optsA).2) ∧
    List.Chain' (· < ·)
      ((progressEvents (convert envA optsA).2).map Prod.fst) :=
  ⟨rfl, (spec_c5_progress_monotone envA optsA _ rfl).2.1⟩

/-- C6: during `Convert` the caller-supplied cancellation flag is checked
at each phase boundary (by the progress helper) and once more after
writing; that last post-writing sample is the completeness flag passed to
the writer's close call. -/
theorem spec_c6_cancellation (env : Env) (opts : Options) (tr : List Ev)
    (h : convert env opts = (true, tr)) :
    closeFlags tr = [env.cancel 4] ∧
    pulseEvents tr = [Ev.checkCancel (env.cancel 0),
      Ev.progress 0 "Writing Texture Files...",
      Ev.checkCancel (env.cancel 1), Ev.progress 10 "Writing Layers...",
      Ev.checkCancel (env.cancel 2), Ev.progress 20 "Writing Materials...",
      Ev.checkCancel (env.cancel 3), Ev.progress 60 "Writing Geometry...",
      Ev.checkCancel (env.cancel 4), Ev.checkCancel (env.cancel 5),
      Ev.progress 100 "Export Complete"] :=
  ⟨(convert_true_projections h).2.2, (convert_true_projections h).2.1⟩

/-- Witness for C6 at a fully populated environment. -/
theorem spec_c6_witness :
    convert envA optsA = (true, (convert envA optsA).2) ∧
    closeFlags (convert envA optsA).2 = [envA.cancel 4] :=
  ⟨rfl, (spec_c6_cancellation envA optsA _ rfl).1⟩

/-- C9: the traversal balances the inheritance manager's stack — after a
completed `WriteEntities` the stack effect of the emitted pushes and pops
is the identity on every starting stack. -/
theorem spec_c9_stack_balanced (opts : Options) (ents : Entities)
    (u : Unit) (tr : List Ev) (h : writeEntities opts ents = (.ok u, tr)) :
    ∀ st, applyStack tr st = st :=
  (writeEntities_ok opts ents u tr h).2

/-- Witness for C9 at a two-level entities tree. -/
theorem spec_c9_witness :
    writeEntities optsA entsA = (Except.ok (), (writeEntities optsA entsA).2) ∧
    applyStack (writeEntities optsA entsA).2 [] = [] :=
  ⟨rfl, spec_c9_stack_balanced optsA entsA () (writeEntities optsA entsA).2
    rfl []⟩

/-- C10: a completed `WriteFace` on a valid face emits exactly one
single-loop record per loop — the outer loop's record first, then one per
inner loop in order, each holding that loop's vertex positions in order —
and bumps the face statistics counter once per record. -/
theorem spec_c10_face_records (face : Face) (u : Unit) (tr : List Ev)
    (h : writeFace (some face) = (.ok u, tr)) :
    ∃ outer inners r0 rs,
      face.outerLoop = .ok outer ∧
      face.innerLoops = .ok inners ∧
      loopInfo outer = .ok r0 ∧
      exceptMap loopInfo inners = Except.ok rs ∧
      faceInfos tr = r0 :: rs ∧
      countKind .statAddFace tr = 1 + inners.length :=
  writeFace_ok h

/-- Witness for C10 at a face with one inner loop. -/
theorem spec_c10_witness :
    writeFace (some faceA) = (Except.ok (), (writeFace (some faceA)).2) ∧
    (∃ outer inners r0 rs,
      faceA.outerLoop = .ok outer ∧
      faceA.innerLoops = .ok inners ∧
      loopInfo outer = .ok r0 ∧
      exceptMap loopInfo inners = Except.ok rs ∧
      faceInfos (writeFace (some faceA)).2 = r0 :: rs ∧
      countKind .statAddFace (writeFace (some faceA)).2 =
        1 + inners.length) :=
  ⟨rfl, spec_c10_face_records faceA () (writeFace (some faceA)).2 rfl⟩

/-- Counterexample to C4 as stated: with edge export enabled on a model
holding a stand-alone edge, a completed conversion emits no edge record
(the edge-writing block is commented out); moreover with material export
enabled on a model with no materials, no materials section is written. -/
theorem spec_c4_counterexample :
    ¬ c4Claim ∧
    (optsA.exportMaterials = true ∧ (convert envEmpty optsA).1 = true ∧
      Ev.startMaterials ∉ (convert envEmpty optsA).2) := by
  constructor
  · intro h
    have h4 := (h envA optsA (convert envA optsA).2 rfl).2.2.2
    obtain ⟨i, hi⟩ := h4.mpr ⟨rfl, modelA, entsA, edgeA, [], rfl, rfl, rfl⟩
    exact (convert_events envA optsA _ hi).2 rfl
  · refine ⟨rfl, rfl, ?_⟩
    intro hmem
    obtain ⟨model, t1, t2, t3, t4, hcm, h1, h2, h3, h4, s1, s2, s3, s4,
      hdisp⟩ := convert_true_phase_mem
      (show convert envEmpty optsA = (true, (convert envEmpty optsA).2)
        from rfl)
    have hmeq : model = modelEmpty := by
      have : (Except.ok modelEmpty : Except Unit Model) = .ok model := hcm
      injection this with h0
      exact h0.symm
    subst hmeq
    have k1 := writeTextureFiles_evOk envEmpty optsA
    rw [h1] at k1
    have k2 := writeLayers_evOk optsA modelEmpty
    rw [h2] at k2
    have k4 := writeGeometry_evOk optsA modelEmpty
    rw [h4] at k4
    rcases hdisp _ hmem with hm | hm | hm | hm | hfix
    · exact absurd rfl (evOk_kind_ne (by decide) (k1 _ hm))
    · exact absurd rfl (evOk_kind_ne (by decide) (k2 _ hm))
    · rw [writeMaterials_empty_flat rfl rfl rfl] at h3
      injection h3 with hx hy
      rw [← hy] at hm
      simp at hm
    · exact absurd rfl (evOk_kind_ne (by decide) (k4 _ hm))
    · exact absurd hfix (by decide)

/-- C4 amended: on a completed conversion the layers section appears iff
layer export is on; the materials section appears iff material export is
on and the model has a layer (grouped by layer) or a material (flat);
face records appear only with face export on, and do appear for a valid
top-level face; and edge records are never emitted on any run, whatever
the edges toggle. -/
theorem spec_c4_amended :
    (∀ (env : Env) (opts : Options) (tr : List Ev),
      convert env opts = (true, tr) →
      ((Ev.startLayers ∈ tr) ↔ opts.exportLayers = true) ∧
      (∀ model ll ml, env.createModel = .ok model → model.layers = .ok ll →
        model.materials = .ok ml →
        ((Ev.startMaterials ∈ tr) ↔ (opts.exportMaterials = true ∧
          (if opts.exportMaterialsByLayer = true then ll ≠ [] else
            ml ≠ [])))) ∧
      (∀ model is gs fs es l face, env.createModel = .ok model →
        model.entities = .ok (Entities.mk is gs fs es) → fs = Except.ok l →
        some face ∈ l → opts.exportFaces = true →
        ∃ i, Ev.writeFaceInfo i ∈ tr)) ∧
    (∀ (env : Env) (opts : Options), opts.exportFaces = false →
      ∀ i, Ev.writeFaceInfo i ∉ (convert env opts).2) ∧
    (∀ (env : Env) (opts : Options) (i : EdgeInfo),
      Ev.writeEdgeInfo i ∉ (convert env opts).2) := by
  refine ⟨?_, ?_, ?_⟩
  · intro env opts tr h
    obtain ⟨model, t1, t2, t3, t4, hcm, h1, h2, h3, h4, s1, s2, s3, s4,
      hdisp⟩ := convert_true_phase_mem h
    have k1 := writeTextureFiles_evOk env opts
    rw [h1] at k1
    have k2 := writeLayers_evOk opts model
    rw [h2] at k2
    have k3 := writeMaterials_evOk opts model
    rw [h3] at k3
    have k4 := writeGeometry_evOk opts model
    rw [h4] at k4
    refine ⟨?_, ?_, ?_⟩
    · constructor
      · intro hmem
        rcases hdisp _ hmem with hm | hm | hm | hm | hfix
        · exact absurd rfl (evOk_kind_ne (by decide) (k1 _ hm))
        · by_contra hL
          have hLf : opts.exportLayers = false := by
            cases hEL : opts.exportLayers
            · rfl
            · exact absurd hEL hL
          rw [writeLayers_off hLf] at h2
          injection h2 with hx hy
          rw [← hy] at hm
          simp at hm
        · exact absurd rfl (evOk_kind_ne (by decide) (k3 _ hm))
        · exact absurd rfl (evOk_kind_ne (by decide) (k4 _ hm))
        · exact absurd hfix (by decide)
      · intro hL
        have hmem := writeLayers_start_mem' opts model hL
        rw [h2] at hmem
        exact s2 _ hmem
    · intro model2 ll ml hcm2 hll hml
      rw [hcm] at hcm2
      injection hcm2 with hmeq
      subst hmeq
      constructor
      · intro hmem
        rcases hdisp _ hmem with hm | hm | hm | hm | hfix
        · exact absurd rfl (evOk_kind_ne (by decide) (k1 _ hm))
        · exact absurd rfl (evOk_kind_ne (by decide) (k2 _ hm))
        · have hMt : opts.exportMaterials = true := by
            by_contra hM
            have hMf : opts.exportMaterials = false := by
              cases hEM : opts.exportMaterials
              · rfl
              · exact absurd hEM hM
            rw [writeMaterials_off hMf] at h3
            injection h3 with hx hy
            rw [← hy] at hm
            simp at hm
          refine ⟨hMt, ?_⟩
          split
          · intro hllE
            rename_i hBL
            rw [writeMaterials_empty_byLayer hMt hBL
              (by rw [hll, hllE])] at h3
            injection h3 with hx hy
            rw [← hy] at hm
            simp at hm
          · intro hmlE
            rename_i hBL
            have hBLf : opts.exportMaterialsByLayer = false := by
              cases hEB : opts.exportMaterialsByLayer
              · rfl
              · exact absurd hEB hBL
            rw [writeMaterials_empty_flat hMt hBLf
              (by rw [hml, hmlE])] at h3
            injection h3 with hx hy
            rw [← hy] at hm
            simp at hm
        · exact absurd rfl (evOk_kind_ne (by decide) (k4 _ hm))
        · exact absurd hfix (by decide)
      · rintro ⟨hMt, hcond⟩
        by_cases hBL : opts.exportMaterialsByLayer = true
        · rw [if_pos hBL] at hcond
          have hmem := writeMaterials_start_mem_byLayer hMt hBL hll hcond
          rw [h3] at hmem
          exact s3 _ hmem
        · have hBLf : opts.exportMaterialsByLayer = false := by
            cases hEB : opts.exportMaterialsByLayer
            · rfl
            · exact absurd hEB hBL
          rw [if_neg (by simp [hBLf])] at hcond
          have hmem := writeMaterials_start_mem_flat hMt hBLf hml hcond
          rw [h3] at hmem
          exact s3 _ hmem
    · intro model2 is gs fs es l face hcm2 hents hfs hmem hfaces
      rw [hcm] at hcm2
      injection hcm2 with hmeq
      subst hmeq
      obtain ⟨i, hi⟩ := writeGeometry_faces hfaces h4 hents hfs hmem
      exact ⟨i, s4 _ hi⟩
  · intro env opts hf i hi
    exact (convert_noFace env opts hf _ hi) rfl
  · intro env opts i hi
    exact (convert_events env opts _ hi).2 rfl

/-- Witness for the amended C4 at a fully populated environment. -/
theorem spec_c4_witness :
    convert envA optsA = (true, (convert envA optsA).2) ∧
    Ev.startLayers ∈ (convert envA optsA).2 :=
  ⟨rfl, ((spec_c4_amended.1 envA optsA _ rfl).1).mpr rfl⟩

/-- Counterexample to C7 as stated: against an invalid inherited current
layer, an edge lying on its own layer gets no recorded layer name at all,
where the claim would record the edge's own layer. -/
theorem spec_c7_counterexample : ¬ c7Claim := by
  intro h
  have := h optsA none ⟨9, 9, 9, 9⟩ edgeC7
    ⟨true, none, true, ⟨9, 9, 9, 9⟩, ⟨1, 0, 0⟩, ⟨2, 0, 0⟩⟩
    [Ev.call "SUEdgeGetStartVertex" true, Ev.call "SUVertexGetPosition" true,
     Ev.call "SUEdgeGetEndVertex" true, Ev.call "SUVertexGetPosition" true]
    rfl rfl
  simp [c7SpecLayerName, edgeC7, layerA, Except.toOption] at this

/-- C7 amended: with layer export enabled the inherited current layer acts
only as a validity gate — no layer name is recorded when it is invalid,
and otherwise the recorded name is always the edge's own layer's name —
while with material export enabled the recorded color is always the
inheritance manager's current edge color. -/
theorem spec_c7_amended (opts : Options) (cl : Option Layer) (cc : Color)
    (edge : Edge) (info : EdgeInfo) (tr : List Ev)
    (h : getEdgeInfo opts cl cc edge = (.ok info, tr)) :
    info.hasLayer = opts.exportLayers ∧
    (opts.exportLayers = true → cl = none → info.layerName = none) ∧
    (opts.exportLayers = true → ∀ l0, cl = some l0 →
      ∃ el nm, edge.layer = .ok (some el) ∧ el.name = .ok nm ∧
        info.layerName = some nm) ∧
    (opts.exportLayers = false → info.layerName = none) ∧
    info.hasColor = opts.exportMaterials ∧
    (opts.exportMaterials = true → info.color = cc) := by
  obtain ⟨a1, a2, a3, a4, a5, a6, -⟩ := getEdgeInfo_ok h
  exact ⟨a1, a2, a3, a4, a5, a6⟩

/-- Witness for the amended C7 at an edge on `layerA` seen under a valid
inherited layer. -/
theorem spec_c7_witness :
    getEdgeInfo optsA (some layerB) ⟨0, 0, 0, 0⟩ edgeA =
      (.ok ⟨true, some "LayerA", true, ⟨0, 0, 0, 0⟩, ⟨7, 0, 0⟩, ⟨8, 0, 0⟩⟩,
       [Ev.call "SUDrawingElementGetLayer" true,
        Ev.call "SULayerGetName" true,
        Ev.call "SUEdgeGetStartVertex" true,
        Ev.call "SUVertexGetPosition" true,
        Ev.call "SUEdgeGetEndVertex" true,
        Ev.call "SUVertexGetPosition" true]) ∧
    (⟨true, some "LayerA", true, ⟨0, 0, 0, 0⟩, ⟨7, 0, 0⟩,
      ⟨8, 0, 0⟩⟩ : EdgeInfo).hasLayer = optsA.exportLayers :=
  ⟨rfl, (spec_c7_amended optsA (some layerB) ⟨0, 0, 0, 0⟩ edgeA _ _ rfl).1⟩

/-- C8: the output of a completed conversion appears in the fixed phase
order — textures, header, layers, materials, geometry — and within every
completed entities collection the records are instance records, then group
blocks (each a group opening, the recursively ordered nested records, then
the group's transformation), then face records. -/
theorem spec_c8_record_order :
    (∀ (env : Env) (opts : Options) (tr : List Ev),
      convert env opts = (true, tr) →
      ∃ model v t1 t2 t3 t4,
        env.createModel = .ok model ∧
        writeTextureFiles env opts = (.ok (), t1) ∧
        model.version = .ok v ∧
        writeLayers opts model = (.ok (), t2) ∧
        writeMaterials opts model = (.ok (), t3) ∧
        writeGeometry opts model = (.ok (), t4) ∧
        tr = [Ev.initSDK, Ev.call "SUModelCreateFromFile" true,
              Ev.call "SUTextureWriterCreate" true, Ev.openFile true] ++
          ([Ev.checkCancel (env.cancel 0),
            Ev.progress 0 "Writing Texture Files..."] ++ t1 ++
           [Ev.call "SUModelGetVersion" true, Ev.writeHeader v,
            Ev.checkCancel (env.cancel 1),
            Ev.progress 10 "Writing Layers..."] ++ t2 ++
           [Ev.checkCancel (env.cancel 2),
            Ev.progress 20 "Writing Materials..."] ++ t3 ++
           [Ev.checkCancel (env.cancel 3),
            Ev.progress 60 "Writing Geometry..."] ++ t4 ++
           [Ev.checkCancel (env.cancel 4), Ev.close (env.cancel 4),
            Ev.checkCancel (env.cancel 5),
            Ev.progress 100 "Export Complete"]) ++
          [Ev.releaseTextureWriter, Ev.releaseModel, Ev.terminate]) ∧
    (∀ (opts : Options) (ents : Entities) (u : Unit) (tr : List Ev),
      writeEntities opts ents = (.ok u, tr) → Ordered true (recs tr)) := by
  constructor
  · intro env opts tr h
    obtain ⟨model, mainTr, hcm, hcw, hopen, hmain, rfl⟩ := convert_true h
    obtain ⟨-, v, t1, t2, t3, t4, h1, hver, h2, h3, h4, rfl⟩ :=
      convertMain_ok hmain
    exact ⟨model, v, t1, t2, t3, t4, hcm, h1, hver, h2, h3, h4, by simp⟩
  · intro opts ents u tr h
    exact (writeEntities_ok opts ents u tr h).1

/-- Witness for C8 at a two-level entities tree. -/
theorem spec_c8_witness :
    writeEntities optsA entsA = (Except.ok (), (writeEntities optsA entsA).2) ∧
    Ordered true (recs (writeEntities optsA entsA).2) :=
  ⟨rfl, spec_c8_record_order.2 optsA entsA () (writeEntities optsA entsA).2
    rfl⟩
end SkpXml
